import Mathlib

/-!
A verification development for the `llm_forecasting` evidence-pipeline and
ensemble-aggregation code.  Python functions from
`llm_forecasting/utils/string_utils.py`, `utils/time_utils.py`, `ranking.py`,
`information_retrieval.py`, `ensemble.py` and `summarize.py` are shallowly
embedded as executable Lean definitions.  Strings are modelled as Lean
`String`s (lists of characters), Python floats as exact rationals (`Rat`),
with an explicit `nan` constructor where NumPy can produce NaN, and Python
exceptions as `Option`/`none` results.  External services (the LLM completion
capability and the two news providers) are modelled as oracle function
parameters; the number of calls made to them is returned explicitly so that
"no provider call is issued" is a provable statement.
-/

namespace LF

/-! ## Python string primitives (on `List Char`) -/

/-- The six characters Python `str.split()` (no separator) treats as
whitespace. -/
def pyIsSpace (c : Char) : Bool :=
  c = ' ' || c = '\t' || c = '\n' || c = '\r' || c = '\x0b' || c = '\x0c'

/-- Python `str.split()` with no separator: split on runs of whitespace and
drop empty pieces. -/
def pySplitWSL : List Char → List (List Char)
  | [] => []
  | c :: rest =>
    if pyIsSpace c then pySplitWSL rest
    else
      match pySplitWSL rest with
      | [] => [[c]]
      | w :: ws =>
        match rest with
        | [] => [[c]]
        | d :: _ => if pyIsSpace d then [c] :: w :: ws else (c :: w) :: ws

/-- `str.split()` on a `String`, returning words as `String`s. -/
def pySplitWS (s : String) : List String :=
  (pySplitWSL s.data).map String.mk

/-- Python `str.lower()` (per-character lowercasing, as for ASCII data). -/
def pyLower (s : String) : String :=
  String.mk (s.data.map Char.toLower)

/-- Python slicing `s[-n:]` for `n > 0`: the last `min n (length s)`
characters. -/
def takeLastChars (s : String) (n : Nat) : String :=
  String.mk (s.data.drop (s.data.length - n))

/-- Is `needle` a prefix of `hay`? -/
def isPrefixL : List Char → List Char → Bool
  | [], _ => true
  | _ :: _, [] => false
  | a :: as, b :: bs => a = b && isPrefixL as bs

/-- Python `in` operator on strings: contiguous-substring containment. -/
def isSubstrL (needle : List Char) : List Char → Bool
  | [] => isPrefixL needle []
  | c :: rest => isPrefixL needle (c :: rest) || isSubstrL needle rest

/-- `needle in hay` for `String`s. -/
def isSubstr (needle hay : String) : Bool :=
  isSubstrL needle.data hay.data

/-- Python `"sep".join`-style splitting key: `len(s.split(" "))`, which for a
split on the single-space separator is the number of spaces plus one. -/
def splitSpaceCount (s : String) : Nat :=
  s.data.count ' ' + 1

/-- Insert `a` into a list sorted descending by `key`, before the first
element whose key is `≤ key a` (so that, combined with `sortDescBy`, equal
keys keep their original order, matching the stable Python builtin sorted). -/
def insertDescBy (key : α → Nat) (a : α) : List α → List α
  | [] => [a]
  | b :: bs => if key b ≤ key a then a :: b :: bs else b :: insertDescBy key a bs

/-- Stable sort, descending by `key`: Python `sorted(l, key=key, reverse=True)`. -/
def sortDescBy (key : α → Nat) : List α → List α
  | [] => []
  | a :: as => insertDescBy key a (sortDescBy key as)

/-! ## `string_utils.is_string_in_list` -/

/-- `string_utils.is_string_in_list`: case-insensitive membership. -/
def is_string_in_list (target : String) (l : List String) : Bool :=
  l.any (fun s => pyLower s = pyLower target)

/-! ## `string_utils.find_end_word`

`find_end_word(paragraph, end_words, window_size=50)` sorts the candidate
words by `len(s.split(" "))` descending (Python `sorted` is stable) and
returns the first one contained in `paragraph[-window_size:]` — note the
slice is the last `window_size` *characters* of the paragraph.  Returns
`None` (here `none`) when nothing is found. -/

def find_end_word (paragraph : String) (end_words : List String)
    (window_size : Nat := 50) : Option String :=
  let sorted_words := sortDescBy splitSpaceCount end_words
  sorted_words.find? (fun w => isSubstr w (takeLastChars paragraph window_size))

/-! ## `string_utils.extract_probability_with_stars`

The Python function runs `re.findall(r"\*(.*?[\d\.]+.*?)\*", text)` and, on
fallback, `re.findall(r"([\d\.]+.*?)\*", text)`.  Both patterns are embedded
as left-to-right character-scanning state machines.  The machines are
faithful to Python backtracking semantics for these particular patterns:
a match attempt opened at a `*` (resp. at a `[0-9.]` character) either
succeeds at the next closing `*` reachable without crossing a newline
(`.` does not match `\n`), or fails at that newline/end of input — and when
it fails, every later attempt opened before that newline provably fails at
the same place, so the scan may simply continue past the newline. -/

/-- Characters matched by the regex class `[\d\.]`. -/
def isDigitDot (c : Char) : Bool :=
  c.isDigit || c = '.'

/-- Scanner state for pattern `\*(.*?[\d\.]+.*?)\*`: outside any match;
just after an opening `*` (first lazy `.*?`, accumulating group text);
inside the `[\d\.]+` run; after the run (second lazy `.*?`). -/
inductive St1 where
  | outside : St1
  | star0 : List Char → St1
  | inRun : List Char → St1
  | afterRun : List Char → St1

/-- All group captures of `re.findall(r"\*(.*?[\d\.]+.*?)\*", ·)`. -/
def starScan : List Char → St1 → List (List Char)
  | [], _ => []
  | c :: rest, .outside =>
    if c = '*' then starScan rest (.star0 []) else starScan rest .outside
  | c :: rest, .star0 acc =>
    if c = '\n' then starScan rest .outside
    else if isDigitDot c then starScan rest (.inRun (acc ++ [c]))
    else starScan rest (.star0 (acc ++ [c]))
  | c :: rest, .inRun acc =>
    if isDigitDot c then starScan rest (.inRun (acc ++ [c]))
    else if c = '*' then acc :: starScan rest .outside
    else if c = '\n' then starScan rest .outside
    else starScan rest (.afterRun (acc ++ [c]))
  | c :: rest, .afterRun acc =>
    if c = '*' then acc :: starScan rest .outside
    else if c = '\n' then starScan rest .outside
    else starScan rest (.afterRun (acc ++ [c]))

/-- Scanner state for the fallback pattern `([\d\.]+.*?)\*`. -/
inductive St2 where
  | outside : St2
  | inRun : List Char → St2
  | afterRun : List Char → St2

/-- All group captures of `re.findall(r"([\d\.]+.*?)\*", ·)`. -/
def numStarScan : List Char → St2 → List (List Char)
  | [], _ => []
  | c :: rest, .outside =>
    if isDigitDot c then numStarScan rest (.inRun [c]) else numStarScan rest .outside
  | c :: rest, .inRun acc =>
    if isDigitDot c then numStarScan rest (.inRun (acc ++ [c]))
    else if c = '*' then acc :: numStarScan rest .outside
    else if c = '\n' then numStarScan rest .outside
    else numStarScan rest (.afterRun (acc ++ [c]))
  | c :: rest, .afterRun acc =>
    if c = '*' then acc :: numStarScan rest .outside
    else if c = '\n' then numStarScan rest .outside
    else numStarScan rest (.afterRun (acc ++ [c]))

/-! ## Exact rationals with kernel-computable arithmetic

Python floats that appear in this code are all exact decimal values,
probabilities, and their means/medians; they are modelled as exact rationals.
Mathlib `Rat` normalizes through `Nat.gcd`, which the kernel cannot reduce,
so concrete evaluation uses an unnormalized numerator/denominator pair; the
embedding-level value of a `PyRat` is given by `PyRat.val : PyRat → Rat`.
Every `PyRat` built by the embedded code has a positive denominator. -/

structure PyRat where
  num : Int
  den : Nat
deriving DecidableEq, Repr

/-- The rational value a `PyRat` denotes. -/
def PyRat.val (q : PyRat) : Rat :=
  (q.num : Rat) / (q.den : Rat)

/-- Embed a natural number. -/
def PyRat.ofNat (n : Nat) : PyRat :=
  ⟨n, 1⟩

def pyAdd (a b : PyRat) : PyRat :=
  ⟨a.num * b.den + b.num * a.den, a.den * b.den⟩

def pyMul (a b : PyRat) : PyRat :=
  ⟨a.num * b.num, a.den * b.den⟩

/-- Divide by a positive natural number. -/
def pyDivNat (a : PyRat) (n : Nat) : PyRat :=
  ⟨a.num, a.den * n⟩

/-- Division, defined for a nonzero divisor. -/
def pyDiv (a b : PyRat) : PyRat :=
  if b.num < 0 then ⟨-(a.num * b.den), a.den * b.num.natAbs⟩
  else ⟨a.num * b.den, a.den * b.num.natAbs⟩

/-- `a <= b`, assuming positive denominators. -/
def pyLe (a b : PyRat) : Bool :=
  a.num * b.den ≤ b.num * a.den

/-- `a < b`, assuming positive denominators. -/
def pyLt (a b : PyRat) : Bool :=
  a.num * b.den < b.num * a.den

/-- Read a natural number from a list of decimal digits (most significant
first), as Python does when parsing the digits of a float literal. -/
def digitsToNat (l : List Char) : Nat :=
  l.foldl (fun a c => a * 10 + (c.toNat - 48)) 0

/-- Python `float(s)` for a string made only of digits and dots (the only
shape `[\d\.]+` can produce): defined iff it has at least one digit and at
most one dot; `"1."` is 1, `".5"` is 1/2, `"."` and `"1.2.3"` raise. -/
def parseDotNum (l : List Char) : Option PyRat :=
  if l.any Char.isDigit = false then none
  else if l.count '.' = 0 then some (PyRat.ofNat (digitsToNat l))
  else if l.count '.' = 1 then
    let ip := l.takeWhile (fun c => c ≠ '.')
    let fp := (l.dropWhile (fun c => c ≠ '.')).tail
    some (pyAdd (PyRat.ofNat (digitsToNat ip)) ⟨digitsToNat fp, 10 ^ fp.length⟩)
  else none

/-- `re.search(r"[\d\.]+", ·)`: the first maximal `[\d\.]` run, if any. -/
def firstClassRun (l : List Char) : Option (List Char) :=
  match l.dropWhile (fun c => !isDigitDot c) with
  | [] => none
  | c :: rest => some ((c :: rest).takeWhile isDigitDot)

/-- All maximal `[\d\.]` runs: `re.findall(r"[\d\.]+", ·)`. -/
def classRuns : List Char → List (List Char)
  | [] => []
  | c :: rest =>
    if isDigitDot c then
      match classRuns rest with
      | [] => [[c]]
      | r :: rs =>
        match rest with
        | [] => [[c]]
        | d :: _ => if isDigitDot d then (c :: r) :: rs else [c] :: r :: rs
    else classRuns rest

/-- First loop body of `extract_probability_with_stars`: from one group
match, take the first number run, `float` it (skipping on failure) and
divide by 100 when the match contains a `%`. -/
def numFromStarMatch (g : List Char) : Option PyRat :=
  match firstClassRun g with
  | none => none
  | some run =>
    match parseDotNum run with
    | none => none
    | some q => some (if g.contains '%' then pyDiv q (PyRat.ofNat 100) else q)

/-- The `extracted_numbers` list of the first pattern. -/
def extractedNumbers1 (text : String) : List PyRat :=
  (starScan text.data .outside).filterMap numFromStarMatch

/-- The `extracted_numbers` list of the fallback pattern: every number run
of every group, `float`ed, parse failures skipped. -/
def extractedNumbers2 (text : String) : List PyRat :=
  ((numStarScan text.data .outside).map classRuns).flatten.filterMap parseDotNum

/-- The default probability 0.5. -/
def pyHalf : PyRat :=
  ⟨1, 2⟩

/-- `string_utils.extract_probability_with_stars`: return the last number of
the first pattern if it is ≤ 1, else the last number of the fallback pattern
if it is ≤ 1, else 0.5. -/
def extract_probability_with_stars (text : String) : PyRat :=
  match (extractedNumbers1 text).getLast? with
  | some q =>
    if pyLe q (PyRat.ofNat 1) then q
    else
      match (extractedNumbers2 text).getLast? with
      | some r => if pyLe r (PyRat.ofNat 1) then r else pyHalf
      | none => pyHalf
  | none =>
    match (extractedNumbers2 text).getLast? with
    | some r => if pyLe r (PyRat.ofNat 1) then r else pyHalf
    | none => pyHalf

/-! ## Python values returned by prediction extraction

`extract_prediction` returns a float for `answer_type == "probability"` and a
string or `None` for `answer_type == "tokens"`; NumPy aggregation can also
produce NaN.  `Pred` is a sum of these dynamic possibilities. -/

inductive Pred where
  | num : PyRat → Pred
  | nan : Pred
  | tok : String → Pred
  | pynone : Pred
deriving DecidableEq, Repr

/-- `string_utils.extract_prediction`: dispatch on `answer_type`; any other
answer type raises `ValueError`, modelled as `none`. -/
def extract_prediction (response : String) (answer_type : String)
    (end_words : List String) : Option Pred :=
  if answer_type = "probability" then
    some (.num (extract_probability_with_stars response))
  else if answer_type = "tokens" then
    some (match find_end_word response end_words with
          | some w => Pred.tok w
          | none => Pred.pynone)
  else none

/-- The keys of `TOKENS_TO_PROBS_DICT["ten_options"]` from
`config/constants.py`, in dictionary insertion order: the default
`end_words` vocabulary. -/
def defaultEndWords : List String :=
  ["No", "Extremely Unlikely", "Very Unlikely", "Unlikely", "Slightly Unlikely",
   "Slightly Likely", "Likely", "Very Likely", "Extremely Likely", "Yes"]

/-! ## `time_utils.is_more_recent`

Date strings in the format `YYYY-MM-DD` are parsed by `datetime.strptime`
and compared as `datetime` objects; a parsed valid date is modelled as a
year-month-day triple, and `datetime` comparison is lexicographic on the
triple. -/

structure PyDate where
  year : Nat
  month : Nat
  day : Nat
deriving DecidableEq, Repr

/-- Lexicographic strict order on dates, as `datetime` comparison. -/
def dateLt (a b : PyDate) : Bool :=
  a.year < b.year ||
  (a.year = b.year && (a.month < b.month || (a.month = b.month && a.day < b.day)))

/-- Lexicographic non-strict order on dates. -/
def dateLe (a b : PyDate) : Bool :=
  dateLt a b || a = b

/-- `time_utils.is_more_recent(first, second, or_equal_to)`: is the second
date more recent than the first? -/
def is_more_recent (first_date second_date : PyDate)
    (or_equal_to : Bool := false) : Bool :=
  if or_equal_to then dateLe first_date second_date
  else dateLt first_date second_date

/-! ## Articles

One normalized article record.  Python attributes that may hold a non-string
value (the `isinstance` checks in `deduplicate_articles`) or `None` are
`Option`s: `none` models a missing/non-string value. -/

structure Article where
  title : Option String := none
  canonical_link : Option String := none
  summary : Option String := none
  publish_date : Option PyDate := none
  relevance_rating : Option PyRat := none
deriving DecidableEq, Repr

/-- The lowercased link key used by deduplication. -/
def lowLink (a : Article) : Option String :=
  a.canonical_link.map pyLower

/-- The lowercased title key used by deduplication. -/
def lowTitle (a : Article) : Option String :=
  a.title.map pyLower

/-- The `isinstance` guard of `deduplicate_articles` together with the two
lowercased keys it goes on to use: `none` when the title or the link is not
a string, else the pair (lowercased link, lowercased title). -/
def articleKeys (a : Article) : Option (String × String) :=
  match a.title, a.canonical_link with
  | some t, some l => some (pyLower l, pyLower t)
  | _, _ => none

/-- The worker loop of `information_retrieval.deduplicate_articles`,
with the two accumulated Python sets `unique_urls` and `unique_titles`
modelled as lists with membership lookup.  An article whose title or link is
not a string is skipped; an article is appended iff its lowercased link is
not in `unique_urls` and its lowercased title is not in `unique_titles`, and
only then are its key fields added to the two sets. -/
def dedupAux : List String → List String → List Article → List Article
  | _, _, [] => []
  | urls, titles, a :: rest =>
    match articleKeys a with
    | some (lu, tu) =>
      if urls.contains lu = false && titles.contains tu = false then
        a :: dedupAux (lu :: urls) (tu :: titles) rest
      else dedupAux urls titles rest
    | none => dedupAux urls titles rest

/-- `information_retrieval.deduplicate_articles`. -/
def deduplicate_articles (articles : List Article) : List Article :=
  dedupAux [] [] articles

/-! ## `ranking.extract_rating_from_response` and friends -/

/-- The outcome of a Python call: an uncaught exception, or a value. -/
inductive PyResult (α : Type) where
  | exn : PyResult α
  | val : α → PyResult α
deriving DecidableEq, Repr

/-- Python `str.isnumeric()` restricted to ASCII data: nonempty and all
digits. -/
def pyIsNumericStr (s : String) : Bool :=
  decide (s.data ≠ []) && s.data.all Char.isDigit

/-- Worker for Python `str.split(sep)` with a nonempty separator `sep`:
non-overlapping leftmost splitting, keeping empty pieces.  `acc` holds the
reversed current piece; `skip` counts remaining characters of an already
matched separator to consume (splitting is non-overlapping, so no new
separator can start inside them). -/
def splitSeqAux (sep : List Char) : List Char → List Char → Nat → List (List Char)
  | [], acc, _ => [acc.reverse]
  | _ :: rest, acc, skip + 1 => splitSeqAux sep rest acc skip
  | c :: rest, acc, 0 =>
    if isPrefixL sep (c :: rest) then
      acc.reverse :: splitSeqAux sep rest [] (sep.length - 1)
    else splitSeqAux sep rest (c :: acc) 0

/-- Python `s.split(sep)` on `String`s (for nonempty `sep`). -/
def pySplitSeq (sep s : String) : List String :=
  (splitSeqAux sep.data s.data [] 0).map String.mk

/-- `ranking.extract_rating_from_response`.  Checked against the source:
`response_str.split()[0]` raises `IndexError` on a whitespace-only response;
when the first word is not numeric and no `"Rating:"` marker exists, the
function falls off its final `if` and returns `None` (`val none`); the inner
non-numeric case returns the default 1.0. -/
def extract_rating_from_response (response_str : String) : PyResult (Option PyRat) :=
  match pySplitWS response_str with
  | [] => .exn
  | rating :: _ =>
    if pyIsNumericStr rating then .val (some (PyRat.ofNat (digitsToNat rating.data)))
    else
      match pySplitSeq "Rating:" response_str with
      | _ :: seg :: _ =>
        match pySplitWS seg with
        | [] => .exn
        | r :: _ =>
          if pyIsNumericStr r then .val (some (PyRat.ofNat (digitsToNat r.data)))
          else .val (some (PyRat.ofNat 1))
      | _ => .val none

/-! ## `ranking._sort_and_filter_articles`

The Boolean in the result records whether `logger.error` was invoked for an
unrecognized sorting criterion.  Python mutates missing publish dates in
place before the date sort; the model maps the fill over the filtered list. -/

/-- Stable insertion into a descending-sorted list: `le b a` reads "the key
of `b` is at most the key of `a`".  `a` is placed before the first element
whose key is ≤ its own, so equal keys keep input order, as the stable
Python builtin sorted with `reverse=True`. -/
def insertDescByB (le : α → α → Bool) (a : α) : List α → List α
  | [] => [a]
  | b :: bs => if le b a then a :: b :: bs else b :: insertDescByB le a bs

/-- Stable descending sort by a Boolean key comparison. -/
def sortDescByB (le : α → α → Bool) : List α → List α
  | [] => []
  | a :: as => insertDescByB le a (sortDescByB le as)

/-- Truthiness-aware filter of the Python expression
`article.relevance_rating and article.relevance_rating >= threshold`:
a `None` or `0.0` rating is falsy. -/
def ratingPasses (threshold : PyRat) (a : Article) : Bool :=
  match a.relevance_rating with
  | none => false
  | some q => decide (q.num ≠ 0) && pyLe threshold q

/-- Rating of an article, defaulting (unreachably, after the filter) to 0. -/
def ratingOf (a : Article) : PyRat :=
  (a.relevance_rating).getD (PyRat.ofNat 0)

/-- Publish date of an article, defaulting (unreachably, after the fill) to
year 1. -/
def pubDateOf (a : Article) : PyDate :=
  (a.publish_date).getD ⟨1, 1, 1⟩

/-- `ranking._sort_and_filter_articles` (the leading underscore is dropped
for the Lean name).  Returns the resulting list together with a flag that is
true iff the unrecognized-sort-key error was logged. -/
def sort_and_filter_articles (articles : List Article) (default_date : PyDate)
    (threshold : PyRat) (sort_by : String) : List Article × Bool :=
  let filtered_articles := articles.filter (ratingPasses threshold)
  if sort_by = "relevance" then
    (sortDescByB (fun x y => pyLe (ratingOf x) (ratingOf y)) filtered_articles, false)
  else if sort_by = "date" then
    let filled := filtered_articles.map (fun a =>
      match a.publish_date with
      | none => { a with publish_date := some default_date }
      | some _ => a)
    (sortDescByB (fun x y => dateLe (pubDateOf x) (pubDateOf y)) filled, false)
  else
    (filtered_articles, true)

/-! ## `utils.most_frequent_item` -/

/-- Distinct elements of a list in first-occurrence order (the iteration
order of a Python `Counter` built from the list). -/
def distinctAux [DecidableEq α] : List α → List α → List α
  | _, [] => []
  | seen, a :: rest =>
    if seen.contains a then distinctAux seen rest
    else a :: distinctAux (a :: seen) rest

/-- `utils.most_frequent_item`: `None` on an empty list, else the item with
the highest count; ties go to the first-encountered item, as
`Counter.most_common(1)` resolves them. -/
def most_frequent_item [DecidableEq α] (lst : List α) : Option α :=
  match lst with
  | [] => none
  | _ =>
    (distinctAux [] lst).foldl
      (fun best x =>
        match best with
        | none => some x
        | some b => if lst.count b < lst.count x then some x else best)
      none

/-! ## `string_utils.get_prompt`

`prompt_template.format(**mapping)` is modelled by `pyFormatL`, a scanner
that substitutes `\x7bkey\x7d` fields from an association list (latest
assignment first), handles doubled-brace escapes, and fails (as `format`
raises) on an unknown key or an unmatched brace. -/

mutual

/-- Brace-substitution scanner for `str.format`. -/
def pyFormatL (m : List (String × String)) : List Char → Option (List Char)
  | [] => some []
  | '{' :: '{' :: rest => (pyFormatL m rest).map (fun r => '{' :: r)
  | '}' :: '}' :: rest => (pyFormatL m rest).map (fun r => '}' :: r)
  | '{' :: rest => pyFormatKey m rest []
  | '}' :: _ => none
  | c :: rest => (pyFormatL m rest).map (fun r => c :: r)

/-- Collect a field name up to the closing brace, then substitute. -/
def pyFormatKey (m : List (String × String)) : List Char → List Char → Option (List Char)
  | [], _ => none
  | '}' :: rest, keyAcc =>
    match List.lookup (String.mk keyAcc.reverse) m with
    | some v => (pyFormatL m rest).map (fun r => v.data ++ r)
    | none => none
  | c :: rest, keyAcc => pyFormatKey m rest (c :: keyAcc)

end

/-- Arguments of `string_utils.get_prompt`; `none` is Python `None`.
The `dates` pair holds the two values `dates[0]` and `dates[1]`; `none`
models both a `None` argument and an argument on which indexing raises. -/
structure PromptArgs where
  question : Option String := none
  data_source : Option String := none
  dates : Option (String × String) := none
  background : Option String := none
  resolution_criteria : Option String := none
  num_keywords : Option Nat := none
  retrieved_info : Option String := none
  reasoning : Option String := none
  article : Option String := none
  summary : Option String := none
  few_shot_examples : Option (List (String × String)) := none
  max_words : Option Nat := none

/-- Rendering of a possibly-`None` string by `str.format`. -/
def pyStrOpt : Option String → String
  | some s => s
  | none => "None"

/-- Rendering of a possibly-`None` integer by `str`. -/
def pyStrNat : Option Nat → String
  | some n => toString n
  | none => "None"

/-- One iteration of the field loop of `get_prompt`: add the assignments
this field contributes to the mapping (newest first, shadowing older ones,
as Python dict assignment).  Fails only for `DATES` without an indexable
`dates` argument. -/
def applyField (a : PromptArgs) (acc : Option (List (String × String)))
    (f : String) : Option (List (String × String)) :=
  match acc with
  | none => none
  | some m =>
    if f = "QUESTION" then some (("question", pyStrOpt a.question) :: m)
    else if f = "DATES" then
      match a.dates with
      | none => none
      | some (d0, d1) => some (("date_end", d1) :: ("date_begin", d0) :: m)
    else if f = "FEW_SHOT_EXAMPLES" then
      some (((((a.few_shot_examples).getD []).enumFrom 1)).flatMap
        (fun p => [("question_" ++ toString p.1, p.2.1),
                   ("answer_" ++ toString p.1, p.2.2)]) ++ m)
    else if f = "RETRIEVED_INFO" then some (("retrieved_info", pyStrOpt a.retrieved_info) :: m)
    else if f = "BACKGROUND" then some (("background", pyStrOpt a.background) :: m)
    else if f = "RESOLUTION_CRITERIA" then
      some (("resolution_criteria", pyStrOpt a.resolution_criteria) :: m)
    else if f = "REASONING" then some (("reasoning", pyStrOpt a.reasoning) :: m)
    else if f = "BASE_REASONINGS" then some (("base_reasonings", pyStrOpt a.reasoning) :: m)
    else if f = "NUM_KEYWORDS" then some (("num_keywords", pyStrNat a.num_keywords) :: m)
    else if f = "MAX_WORDS" then some (("max_words", pyStrNat a.max_words) :: m)
    else if f = "ARTICLE" then some (("article", pyStrOpt a.article) :: m)
    else if f = "SUMMARY" then some (("summary", pyStrOpt a.summary) :: m)
    else if f = "DATA_SOURCE" then some (("data_source", pyStrOpt a.data_source) :: m)
    else some m

/-- `string_utils.get_prompt`: build the mapping from the field list, then
format the template with it.  `none` models an exception. -/
def get_prompt (prompt_template : String) (fields : List String)
    (a : PromptArgs) : Option String :=
  match fields.foldl (applyField a) (some []) with
  | none => none
  | some m => (pyFormatL m prompt_template.data).map String.mk

/-! ## `ensemble.py` -/

/-- The `dates` argument `ensemble.aggregate_base_reasonings` forwards to
`get_prompt` is the single string `today_to_close_date_range`; a template
using the `DATES` field would index into it, getting its first two
characters (`IndexError`, hence `none`, when shorter). -/
def strIndexPair (s : String) : Option (String × String) :=
  match s.data with
  | c0 :: c1 :: _ => some (String.mk [c0], String.mk [c1])
  | _ => none

/-- `ensemble.concatenate_reasonings`: label each reasoning
"Response from forecaster k" and join with separators. -/
def concatenate_reasonings (reasonings : List String) : String :=
  let pieces := (reasonings.enumFrom 1).map
    (fun p => "Response from forecaster " ++ toString p.1 ++ ":\n" ++ p.2)
  "---\n" ++ String.intercalate "\n\n-\n" pieces ++ "\n---"

/-- Sum of a list of numbers, as NumPy over exact values. -/
def pySum (l : List PyRat) : PyRat :=
  l.foldl pyAdd (PyRat.ofNat 0)

/-- Stable ascending insertion by value. -/
def insertAscPy (a : PyRat) : List PyRat → List PyRat
  | [] => [a]
  | b :: bs => if pyLe a b then a :: b :: bs else b :: insertAscPy a bs

/-- Ascending sort by value (NumPy sorts values; representative choice at
equal values does not affect the denoted result). -/
def sortAscPy : List PyRat → List PyRat
  | [] => []
  | a :: as => insertAscPy a (sortAscPy as)

/-- `np.mean`: NaN (with a warning) on an empty list, else the arithmetic
mean. -/
def np_mean (l : List PyRat) : Pred :=
  if l.isEmpty then .nan else .num (pyDivNat (pySum l) l.length)

/-- `np.median`: NaN on an empty list; middle element of the sorted values,
or the average of the two middle elements for an even count. -/
def np_median (l : List PyRat) : Pred :=
  if l.isEmpty then .nan
  else
    let s := sortAscPy l
    let n := s.length
    if n % 2 = 1 then .num (s.getD (n / 2) (PyRat.ofNat 0))
    else .num (pyDivNat (pyAdd (s.getD (n / 2 - 1) (PyRat.ofNat 0)) (s.getD (n / 2) (PyRat.ofNat 0))) 2)

/-- `np.average`: plain mean when no weights are given; with weights, raises
(`none`) on a length mismatch or a zero weight sum, else the weighted
average. -/
def np_average (l : List PyRat) (w : Option (List PyRat)) : Option Pred :=
  match w with
  | none => some (np_mean l)
  | some ws =>
    if ws.length ≠ l.length then none
    else if pySum ws = ⟨0, (pySum ws).den⟩ then none
    else some (.num (pyDiv (pySum (List.zipWith pyMul l ws)) (pySum ws)))

/-- NumPy float list from dynamic values: any non-float entry would raise,
modelled as `none`.  (In the probability branch every entry is a float.) -/
def toRatList (l : List Pred) : Option (List PyRat) :=
  l.mapM (fun p => match p with | .num q => some q | _ => none)

/-- The interval check `meta_prediction is None or meta_prediction < 0.0 or
meta_prediction > 1.0`.  A NaN compares false on both sides, so NaN is NOT
flagged; a string comparison would raise, but strings cannot reach this
check. -/
def pyBadProb : Pred → Bool
  | .pynone => true
  | .nan => false
  | .num q => pyLt q ⟨0, 1⟩ || pyLt ⟨1, 1⟩ q
  | .tok _ => false

/-- The token-vocabulary check and default of the token branches:
`meta_prediction is None or not is_string_in_list(meta_prediction,
end_words)` falls back to "Slightly Unlikely".  A float here would raise in
`is_string_in_list` (`none`). -/
def tokenOrDefault (end_words : List String) : Option Pred → Option Pred
  | none => some (Pred.tok "Slightly Unlikely")
  | some .pynone => some (Pred.tok "Slightly Unlikely")
  | some (.tok s) =>
    some (if is_string_in_list s end_words then Pred.tok s else Pred.tok "Slightly Unlikely")
  | some _ => none

/-- The dictionary returned by `ensemble.aggregate_base_reasonings`,
plus an instrumentation field `meta_calls` counting invocations of the
completion capability (`model_eval.get_response_from_model`). -/
structure AggResult where
  base_predictions : List (List Pred)
  meta_prediction : Pred
  meta_prompt : Option String
  meta_reasoning : Option String
  meta_calls : Nat
deriving DecidableEq, Repr

/-- `ensemble.aggregate_base_reasonings`.  The completion capability is the
`oracle` parameter (prompt to raw response).  `none` models an uncaught
exception: the failed leading assert, `np.average` errors, or an
`answer_type` outside probability/tokens (which raises either in
`extract_prediction` or, when no reasoning exists at all, as an unbound
`meta_prediction` at the final return). -/
def aggregate_base_reasonings
    (oracle : String → String)
    (base_reasonings : List (List String))
    (question background_info today_to_close_date_range resolution_criteria
      retrieved_info : String)
    (aggregation_method : String)
    (answer_type : String)
    (weights : Option (List PyRat))
    (end_words : List String)
    (meta_prompt_template : String × List String) : Option AggResult := do
  if base_reasonings.length = 0 then none
  else
    let all_base_predictions ← base_reasonings.mapM
      (fun lst => lst.mapM (fun r => extract_prediction r answer_type end_words))
    let flattened := all_base_predictions.flatten
    match flattened with
    | [p] =>
      pure { base_predictions := all_base_predictions, meta_prediction := p,
             meta_prompt := none, meta_reasoning := none, meta_calls := 0 }
    | _ =>
      if answer_type = "probability" ∧ aggregation_method ≠ "meta" then do
        let nums ← toRatList flattened
        let mp0 ←
          if aggregation_method = "mean" then some (np_mean nums)
          else if aggregation_method = "vote-or-median" then some (np_median nums)
          else if aggregation_method = "weighted-mean" then np_average nums weights
          else none
        let mp := if pyBadProb mp0 then Pred.num pyHalf else mp0
        pure { base_predictions := all_base_predictions, meta_prediction := mp,
               meta_prompt := none, meta_reasoning := none, meta_calls := 0 }
      else if answer_type = "tokens" ∧ aggregation_method = "vote-or-median" then do
        let mp ← tokenOrDefault end_words (most_frequent_item flattened)
        pure { base_predictions := all_base_predictions, meta_prediction := mp,
               meta_prompt := none, meta_reasoning := none, meta_calls := 0 }
      else do
        let flattened_reasonings := base_reasonings.flatten
        let meta_full_prompt ← get_prompt meta_prompt_template.1 meta_prompt_template.2
          { question := some question, background := some background_info,
            dates := strIndexPair today_to_close_date_range,
            retrieved_info := some retrieved_info,
            reasoning := some (concatenate_reasonings flattened_reasonings),
            resolution_criteria := some resolution_criteria }
        let meta_reasoning := oracle meta_full_prompt
        let mp ←
          if answer_type = "probability" then
            let q := extract_probability_with_stars meta_reasoning
            some (if pyBadProb (Pred.num q) then Pred.num pyHalf else Pred.num q)
          else if answer_type = "tokens" then
            tokenOrDefault end_words
              (some (match find_end_word meta_reasoning end_words with
                     | some w => Pred.tok w
                     | none => Pred.pynone))
          else none
        pure { base_predictions := all_base_predictions, meta_prediction := mp,
               meta_prompt := some meta_full_prompt,
               meta_reasoning := some meta_reasoning, meta_calls := 1 }

/-! ## `summarize.py` -/

/-- Join chunks of characters with single spaces, Python
`" ".join` at the character level. -/
def joinSpaceL : List (List Char) → List Char
  | [] => []
  | [w] => w
  | w :: ws => w ++ ' ' :: joinSpaceL ws

/-- `" ".join` on `String`s. -/
def joinSpace (l : List String) : String :=
  String.mk (joinSpaceL (l.map String.data))

/-- The word loop of `summarize.split_text_into_chunks`: accumulate words
while the running token count stays within `token_limit`, flushing the
current chunk when the next word would exceed it.  (When the very first
word already exceeds the limit, Python appends the empty join of the empty
current chunk, reproduced here.) -/
def chunkLoop (tk : String → Nat) (token_limit : Nat) :
    List String → List String → Nat → List String
  | [], cur, _ => if cur.isEmpty then [] else [joinSpace cur]
  | w :: ws, cur, curTok =>
    if token_limit < curTok + tk w then
      joinSpace cur :: chunkLoop tk token_limit ws [w] (tk w)
    else chunkLoop tk token_limit ws (cur ++ [w]) (curTok + tk w)

/-- `summarize.split_text_into_chunks` with the token counter `tk`
(`model_utils.count_tokens` for a fixed model) as a parameter. -/
def split_text_into_chunks (tk : String → Nat) (text : String)
    (token_limit : Nat) : List String :=
  chunkLoop tk token_limit (pySplitWS text) [] 0

/-- `summarize.recursive_summarize`, with the token counter `tk`, the
summarization capability `llm` (the completion call pre-composed with the
fixed prompt template, text in, summary out) and the model token limit
`MODEL_TOKEN_LIMITS[model_name]` as parameters.  The Python recursion has no
structural termination argument, so the model takes explicit `fuel`
bounding the recursion depth; `none` means the recursion exceeds the given
depth.  At or below the limit: one summarization call.  Above it: split
into chunks of at most `limit - 1000` tokens, summarize each chunk
recursively, then recurse on the space-join of the chunk summaries. -/
def recursive_summarize (tk : String → Nat) (llm : String → String)
    (limit : Nat) : Nat → String → Option String
  | 0, _ => none
  | fuel + 1, text =>
    if tk text ≤ limit then some (llm text)
    else
      match (split_text_into_chunks tk text (limit - 1000)).mapM
          (recursive_summarize tk llm limit fuel) with
      | none => none
      | some summarized_chunks =>
        recursive_summarize tk llm limit fuel (joinSpace summarized_chunks)

/-! ## `information_retrieval.py` retrieval entry points

The two news providers are oracle parameters; every function below returns
its result together with the number of provider calls it issued, so the
"no provider call on an invalid date range" property is provable.  The two
retrieval dates arrive as parsed `PyDate`s (valid `YYYY-MM-DD` strings). -/

/-- The characters/sequences `clean_search_queries` strips from Newscatcher
queries. -/
def charactersToRemove : List String :=
  ["[", "]", "/", "\\\\", "%5B", "%5D", "%2F", "%5C", ":", "%3A", "^", "%5E"]

/-- Python `s.replace(sep, "")` for nonempty `sep`: drop the separators. -/
def removeSeq (sep s : String) : String :=
  String.mk ((splitSeqAux sep.data s.data [] 0).flatten)

/-- `information_retrieval.clean_search_queries` applied to one query
(the Python function mutates the query list in place). -/
def cleanQuery (q : String) : String :=
  charactersToRemove.foldl (fun acc c => removeSeq c acc) q

/-- A raw Newscatcher article dictionary (modelled fields only);
`summary` holds the full text and may be missing or `None`. -/
structure NCRaw where
  title : Option String := none
  link : Option String := none
  summary : Option String := none
deriving DecidableEq, Repr

/-- A parsed Newscatcher API response. -/
structure NCResponse where
  status : String := ""
  articles : List (Option NCRaw) := []
deriving DecidableEq, Repr

/-- `NewscatcherArticle.__init__` on the modelled fields: missing title or
link default to the empty string, `canonical_link` aliases `link`, the
summary field is initialized to the full text.  (Publish-date parsing is
not modelled; the date plays no role in the verified properties.) -/
def ncToArticle (r : NCRaw) : Article :=
  { title := some (r.title.getD ""), canonical_link := some (r.link.getD ""),
    summary := r.summary, publish_date := none, relevance_rating := none }

/-- The per-term loop of `get_newscatcher_articles`: call the API (a raised
exception is caught and the term skipped), drop the no-match status, take
the first `num_articles`, drop `None` entries, non-string summaries and
short texts, and build article objects.  Returns the collected articles and
the number of API calls. -/
def ncLoop (api : String → PyResult NCResponse) (num_articles length_threshold : Nat) :
    List String → List Article × Nat
  | [] => ([], 0)
  | q :: qs =>
    let rec_result := ncLoop api num_articles length_threshold qs
    match api q with
    | .exn => (rec_result.1, rec_result.2 + 1)
    | .val resp =>
      let articles :=
        if resp.status ≠ "No matches for your search." then
          (resp.articles.take num_articles).filterMap
            (fun oa =>
              match oa with
              | none => none
              | some a =>
                match a.summary with
                | some s =>
                  if length_threshold < s.data.length then some (ncToArticle a) else none
                | none => none)
        else []
      (articles ++ rec_result.1, rec_result.2 + 1)

/-- `information_retrieval.get_newscatcher_articles`: skip without calls
when no API key is configured; return empty (without calls) on an invalid
date range or an empty term list; otherwise clean the queries, run the
per-term loop and deduplicate. -/
def get_newscatcher_articles (has_key : Bool) (api : String → PyResult NCResponse)
    (search_terms : List String) (date_from date_to : PyDate)
    (num_articles length_threshold : Nat) : List Article × Nat :=
  if has_key = false then ([], 0)
  else if is_more_recent date_from date_to = false then ([], 0)
  else if search_terms.length = 0 then ([], 0)
  else
    let cleaned := search_terms.map cleanQuery
    let looped := ncLoop api num_articles length_threshold cleaned
    (deduplicate_articles looped.1, looped.2)

/-- A raw GNews result dictionary (modelled fields only). -/
structure GRaw where
  title : Option String := none
  url : String := ""
  publisher_href : Option String := none
  search_term : String := ""
deriving DecidableEq, Repr

/-- `information_retrieval.is_irretrievable_site`: a non-string URL is
irretrievable; otherwise check the substring blacklist. -/
def is_irretrievable_site (site_list : List String) (url : Option String) : Bool :=
  match url with
  | none => true
  | some u => site_list.any (fun site => isSubstr site u)

/-- The per-term loop of `get_gnews_articles`: one `get_news` call per term,
dropping `None` entries, entries without a publisher `href` and blacklisted
sites, and recording the retrieving term. -/
def gnewsLoop (api : String → List (Option GRaw)) (site_list : List String) :
    List String → List (List GRaw) × Nat
  | [] => ([], 0)
  | q :: qs =>
    let articles := (api q).filterMap
      (fun oa =>
        match oa with
        | none => none
        | some a =>
          if a.publisher_href ≠ none && !is_irretrievable_site site_list a.publisher_href then
            some { a with search_term := q }
          else none)
    let rec_result := gnewsLoop api site_list qs
    (articles :: rec_result.1, rec_result.2 + 1)

/-- `information_retrieval.get_gnews_articles`: empty (without calls) on an
invalid date range, else one provider call per search term. -/
def get_gnews_articles (api : String → List (Option GRaw)) (site_list : List String)
    (search_terms : List String) (date_from date_to : PyDate) :
    List (List GRaw) × Nat :=
  if is_more_recent date_from date_to = false then ([], 0)
  else gnewsLoop api site_list search_terms

/-- Full-article check of `retrieve_gnews_articles_fulldata`: the fetched
article exists, has truthy cleaned text and publish date, and its text
exceeds the length threshold. -/
def fullArticleOk (length_threshold : Nat) (fa : Article) : Bool :=
  match fa.summary, fa.publish_date with
  | some s, some _ => decide (s.data ≠ []) && decide (length_threshold < s.data.length)
  | _, _ => false

/-- Inner loop of `retrieve_gnews_articles_fulldata` over one article group:
stop at `num_articles` accepted articles, skip already-seen URLs (the URL is
added to the seen set before the fetch), fetch the full text (one provider
call each) and keep it if it passes the checks.  Returns the kept articles,
the updated URL set and the call count. -/
def gnewsFullGroup (getFull : String → Option Article) (num_articles length_threshold : Nat) :
    List GRaw → List String → Nat → List Article × List String × Nat
  | [], urls, _ => ([], urls, 0)
  | a :: rest, urls, added =>
    if num_articles ≤ added then ([], urls, 0)
    else if urls.contains a.url then
      gnewsFullGroup getFull num_articles length_threshold rest urls added
    else
      let urls2 := a.url :: urls
      match getFull a.url with
      | some fa =>
        if fullArticleOk length_threshold fa then
          let r := gnewsFullGroup getFull num_articles length_threshold rest urls2 (added + 1)
          (fa :: r.1, r.2.1, r.2.2 + 1)
        else
          let r := gnewsFullGroup getFull num_articles length_threshold rest urls2 added
          (r.1, r.2.1, r.2.2 + 1)
      | none =>
        let r := gnewsFullGroup getFull num_articles length_threshold rest urls2 added
        (r.1, r.2.1, r.2.2 + 1)

/-- Outer loop of `retrieve_gnews_articles_fulldata`: the seen-URL set
persists across groups, the per-group acceptance counter resets. -/
def gnewsFullLoop (getFull : String → Option Article) (num_articles length_threshold : Nat) :
    List (List GRaw) → List String → List Article × Nat
  | [], _ => ([], 0)
  | g :: gs, urls =>
    let r := gnewsFullGroup getFull num_articles length_threshold g urls 0
    let rest := gnewsFullLoop getFull num_articles length_threshold gs r.2.1
    (r.1 ++ rest.1, r.2.2 + rest.2)

/-- `information_retrieval.retrieve_gnews_articles_fulldata`, with
`google_news.get_full_article` as the oracle `getFull` (`none` models a
`None` result). -/
def retrieve_gnews_articles_fulldata (getFull : String → Option Article)
    (retrieved_articles : List (List GRaw)) (num_articles length_threshold : Nat) :
    List Article × Nat :=
  gnewsFullLoop getFull num_articles length_threshold retrieved_articles []

/-- `information_retrieval.get_articles_from_all_sources`: return empty
immediately (no provider call) unless the end date is strictly more recent
than the start date; otherwise fetch from Newscatcher and GNews (each
skipped for a `None` or empty query list), and deduplicate the
concatenation.  The call count sums all Newscatcher, GNews and full-text
fetches. -/
def get_articles_from_all_sources (has_key : Bool)
    (ncApi : String → PyResult NCResponse) (gApi : String → List (Option GRaw))
    (getFull : String → Option Article) (site_list : List String)
    (queries_gnews queries_nc : Option (List String))
    (date_from date_to : PyDate) (num_articles length_threshold : Nat) :
    List Article × Nat :=
  if is_more_recent date_from date_to = false then ([], 0)
  else
    let nc :=
      match queries_nc with
      | some qs =>
        if 0 < qs.length then
          get_newscatcher_articles has_key ncApi qs date_from date_to num_articles
            length_threshold
        else ([], 0)
      | none => ([], 0)
    let gn :=
      match queries_gnews with
      | some qs =>
        if 0 < qs.length then
          let groups := get_gnews_articles gApi site_list qs date_from date_to
          let full := retrieve_gnews_articles_fulldata getFull groups.1 num_articles
            length_threshold
          (full.1, groups.2 + full.2)
        else ([], 0)
      | none => ([], 0)
    (deduplicate_articles (nc.1 ++ gn.1), nc.2 + gn.2)

/-! ## Derived values used in theorem statements -/

/-- The value `extract_prediction` returns for a valid answer type. -/
def extractPredSome (response : String) (answer_type : String)
    (end_words : List String) : Pred :=
  if answer_type = "probability" then .num (extract_probability_with_stars response)
  else
    match find_end_word response end_words with
    | some w => Pred.tok w
    | none => Pred.pynone

/-- The token prediction the meta branch assigns from a raw meta response. -/
def metaTokenOf (end_words : List String) (response : String) : Pred :=
  match find_end_word response end_words with
  | some w => if is_string_in_list w end_words then Pred.tok w else Pred.tok "Slightly Unlikely"
  | none => Pred.tok "Slightly Unlikely"

/-- A whitespace-word counter, the simplest concrete token counter used to
instantiate `tk` in counterexamples. -/
def wordCount (s : String) : Nat :=
  (pySplitWS s).length

/-- The model token limit of the summarization counterexample; the chunk
limit `caLimit - 1000` is then 1. -/
def caLimit : Nat := 1001

/-- A summarizer satisfying the stated precondition literally: it strictly
shrinks (to the empty string) exactly the inputs whose token count exceeds
the model limit, and returns every other input unchanged. -/
def caLlm (s : String) : String :=
  if caLimit < wordCount s then "" else s

/-- An input text of 1002 one-token words, exceeding `caLimit`. -/
def caText : String :=
  joinSpace (List.replicate 1002 "a")

/-- Claim C8 as stated, over the embedded `recursive_summarize`: whenever
every summarization call returns text with strictly fewer tokens than its
input once the input exceeds the model limit, the recursion terminates for
every input text at some depth, with a final output of at most the model
limit in tokens.  (The model limit exceeds the hard-coded 1000-token safety
margin, as every configured limit does.) -/
def summarizeClaimStatement : Prop :=
  ∀ (tk : String → Nat) (llm : String → String) (limit : Nat) (text : String),
    1000 < limit →
    (∀ t, limit < tk t → tk (llm t) < tk t) →
    ∃ fuel s, recursive_summarize tk llm limit fuel text = some s ∧ tk s ≤ limit

/-! # Theorems -/

/-! ## Generic facts about the numeric embedding -/

/-- A `PyRat` with nonnegative numerator bounded by its denominator denotes
a value in the unit interval (a zero denominator denotes 0). -/
theorem pyRat_val_unit {q : PyRat} (hnum : 0 ≤ q.num) (hle : q.num ≤ (q.den : Int)) :
    0 ≤ q.val ∧ q.val ≤ 1 := by
  unfold PyRat.val
  rcases Nat.eq_zero_or_pos q.den with hd | hd
  · rw [hd]
    norm_num
  · have hdpos : (0 : Rat) < (q.den : Rat) := by positivity
    constructor
    · apply div_nonneg _ (le_of_lt hdpos)
      exact_mod_cast hnum
    · rw [div_le_one hdpos]
      exact_mod_cast hle

/-- Passing the interval check of the clamp means the denoted value lies in
the unit interval. -/
theorem pyBadProb_false_val {p : PyRat} (h : pyBadProb (Pred.num p) = false) :
    0 ≤ p.val ∧ p.val ≤ 1 := by
  simp only [pyBadProb, Bool.or_eq_false_iff, pyLt, decide_eq_false_iff_not,
    not_lt] at h
  obtain ⟨h1, h2⟩ := h
  apply pyRat_val_unit
  · simpa using h1
  · simpa using h2

/-- A numerator bounded via `pyLe · 1` is bounded by the denominator. -/
theorem pyLe_one_num {q : PyRat} (h : pyLe q (PyRat.ofNat 1) = true) :
    q.num ≤ (q.den : Int) := by
  simp only [pyLe, PyRat.ofNat, decide_eq_true_eq] at h
  simpa using h

/-! ## C1: probability extraction -/

/-- The last element of a list is a member. -/
theorem mem_of_getLast?_eq {α : Type _} {l : List α} {x : α}
    (h : l.getLast? = some x) : x ∈ l := by
  obtain ⟨hne, heq⟩ := List.mem_getLast?_eq_getLast (by simpa [Option.mem_def] using h)
  rw [heq]
  exact List.getLast_mem hne

/-- Float-parsing a digits-and-dots run yields a nonnegative numerator and a
positive denominator. -/
theorem parseDotNum_nonneg {l : List Char} {q : PyRat} (h : parseDotNum l = some q) :
    0 ≤ q.num ∧ 0 < q.den := by
  unfold parseDotNum at h
  split_ifs at h with h1 h2 h3
  · obtain rfl := Option.some.inj h
    refine ⟨by simp [PyRat.ofNat], by simp [PyRat.ofNat]⟩
  · obtain rfl := Option.some.inj h
    refine ⟨?_, ?_⟩
    · simp only [pyAdd, PyRat.ofNat]
      positivity
    · simp only [pyAdd, PyRat.ofNat]
      positivity

/-- Numbers extracted by the first pattern are nonnegative with positive
denominator. -/
theorem numFromStarMatch_nonneg {g : List Char} {q : PyRat}
    (h : numFromStarMatch g = some q) : 0 ≤ q.num ∧ 0 < q.den := by
  unfold numFromStarMatch at h
  split at h
  · exact absurd h (by simp)
  · split at h
    · exact absurd h (by simp)
    · rename_i run hrun p hp
      obtain rfl := Option.some.inj h
      obtain ⟨hn, hd⟩ := parseDotNum_nonneg hp
      split
      · simp only [pyDiv, PyRat.ofNat]
        rw [if_neg (by norm_num)]
        constructor
        · simpa using hn
        · simpa using hd
      · exact ⟨hn, hd⟩

/-- Every number in the first extraction list is nonnegative with positive
denominator. -/
theorem extractedNumbers1_nonneg {t : String} {q : PyRat}
    (h : q ∈ extractedNumbers1 t) : 0 ≤ q.num ∧ 0 < q.den := by
  unfold extractedNumbers1 at h
  obtain ⟨g, _, hg⟩ := List.mem_filterMap.mp h
  exact numFromStarMatch_nonneg hg

/-- Every number in the fallback extraction list is nonnegative with
positive denominator. -/
theorem extractedNumbers2_nonneg {t : String} {q : PyRat}
    (h : q ∈ extractedNumbers2 t) : 0 ≤ q.num ∧ 0 < q.den := by
  unfold extractedNumbers2 at h
  obtain ⟨g, _, hg⟩ := List.mem_filterMap.mp h
  exact parseDotNum_nonneg hg

/-- The extracted probability always denotes a value in the unit interval
(needed where the ensemble skips its clamp). -/
theorem extract_probability_val_unit (t : String) :
    0 ≤ (extract_probability_with_stars t).val ∧
      (extract_probability_with_stars t).val ≤ 1 := by
  have hhalf : 0 ≤ pyHalf.val ∧ pyHalf.val ≤ 1 := by
    constructor <;> norm_num [pyHalf, PyRat.val]
  unfold extract_probability_with_stars
  split
  · rename_i q hq
    split_ifs with h1
    · exact pyRat_val_unit (extractedNumbers1_nonneg (mem_of_getLast?_eq hq)).1
        (pyLe_one_num h1)
    · split
      · rename_i r hr
        split_ifs with h2
        · exact pyRat_val_unit (extractedNumbers2_nonneg (mem_of_getLast?_eq hr)).1
            (pyLe_one_num h2)
        · exact hhalf
      · exact hhalf
  · split
    · rename_i r hr
      split_ifs with h2
      · exact pyRat_val_unit (extractedNumbers2_nonneg (mem_of_getLast?_eq hr)).1
          (pyLe_one_num h2)
      · exact hhalf
    · exact hhalf

/-- C1 (amended): `extract_probability_with_stars` returns the last
asterisk-delimited number when that last number is at most 1 (dividing by
100 when its matched segment contains a percent sign); when the first
pattern yields nothing usable it falls back to numbers directly preceding
an asterisk, and defaults to 0.5; in particular it returns 0.73 for a text
containing `*0.73*`, 0.70 for a text containing `*70%*`, and 0.5 for
"no number here". -/
theorem extract_probability_amended (t : String) (q : PyRat)
    (h1 : (extractedNumbers1 t).getLast? = some q)
    (h2 : pyLe q (PyRat.ofNat 1) = true) :
    extract_probability_with_stars t = q ∧
    (extract_probability_with_stars "I estimate *0.73* chance.").val = 73 / 100 ∧
    (extract_probability_with_stars "maybe *70%* likely").val = 7 / 10 ∧
    (extract_probability_with_stars "no number here").val = 1 / 2 := by
  refine ⟨?_, ?_, ?_, ?_⟩
  · unfold extract_probability_with_stars
    rw [h1]
    simp [h2]
  · have h : extract_probability_with_stars "I estimate *0.73* chance." = ⟨73, 100⟩ := by
      decide
    rw [h]
    norm_num [PyRat.val]
  · have h : extract_probability_with_stars "maybe *70%* likely" = ⟨70, 100⟩ := by decide
    rw [h]
    norm_num [PyRat.val]
  · have h : extract_probability_with_stars "no number here" = ⟨1, 2⟩ := by decide
    rw [h]
    norm_num [PyRat.val]

/-- C1 witness: the amended theorem applied at `*0.73*`. -/
theorem extract_probability_amended_witness :
    extract_probability_with_stars "I estimate *0.73* chance." = ⟨73, 100⟩ ∧
    (extract_probability_with_stars "I estimate *0.73* chance.").val = 73 / 100 := by
  have h := extract_probability_amended "I estimate *0.73* chance." ⟨73, 100⟩
    (by decide) (by decide)
  exact ⟨h.1, h.2.1⟩

/-- C1 counterexample: in `*0.3* *5*` the last asterisk-delimited number
that is at most 1 is 0.3 (the star numbers are 0.3 and 5), but because the
function only tests the very last extracted number (5, which exceeds 1) it
falls back and returns the default 0.5 instead of 0.3. -/
theorem extract_probability_counterexample :
    extractedNumbers1 "*0.3* *5*" = [⟨3, 10⟩, ⟨5, 1⟩] ∧
    pyLe ⟨3, 10⟩ (PyRat.ofNat 1) = true ∧
    extract_probability_with_stars "*0.3* *5*" = pyHalf ∧
    pyHalf.val ≠ (⟨3, 10⟩ : PyRat).val := by
  refine ⟨by decide, by decide, by decide, ?_⟩
  norm_num [pyHalf, PyRat.val]

/-! ## C4: token extraction -/

/-- Membership is preserved by descending insertion. -/
theorem mem_insertDescBy {α : Type _} {key : α → Nat} {x a : α} {l : List α} :
    a ∈ insertDescBy key x l ↔ a = x ∨ a ∈ l := by
  induction l with
  | nil => simp [insertDescBy]
  | cons b bs ih =>
    unfold insertDescBy
    split_ifs with h
    · simp [List.mem_cons]
    · simp only [List.mem_cons, ih]
      tauto

/-- Membership is preserved by the stable descending sort. -/
theorem mem_sortDescBy {α : Type _} {key : α → Nat} {a : α} {l : List α} :
    a ∈ sortDescBy key l ↔ a ∈ l := by
  induction l with
  | nil => simp [sortDescBy]
  | cons b bs ih =>
    unfold sortDescBy
    rw [mem_insertDescBy, ih]
    simp

/-- A word found by `find_end_word` belongs to the vocabulary. -/
theorem find_end_word_mem {p : String} {ws : List String} {n : Nat} {w : String}
    (h : find_end_word p ws n = some w) : w ∈ ws := by
  unfold find_end_word at h
  exact mem_sortDescBy.mp (List.mem_of_find?_eq_some h)

/-- C4 (amended): token extraction searches only the last `window_size`
(default 50) *characters* of the response; entries with more words are
tried before entries with fewer words, so for the vocabulary
[Unlikely, Very Unlikely] a response whose 50-character tail contains
"Very Unlikely" yields "Very Unlikely", not its substring "Unlikely"; and
when no vocabulary entry occurs in that character window the function
returns null (`none`, surfaced by `extract_prediction` as the Python value
`None`) — the middle-of-scale default is applied only later, by the
ensemble aggregation step, not here. -/
theorem find_end_word_amended (r : String) (ws : List String)
    (hall : ∀ w ∈ ws, isSubstr w (takeLastChars r 50) = false)
    (r2 : String) (h2 : isSubstr "Very Unlikely" (takeLastChars r2 50) = true) :
    find_end_word r ws 50 = none ∧
    extract_prediction r "tokens" ws = some Pred.pynone ∧
    find_end_word r2 ["Unlikely", "Very Unlikely"] 50 = some "Very Unlikely" := by
  have hnone : find_end_word r ws 50 = none := by
    unfold find_end_word
    rw [List.find?_eq_none]
    intro w hw
    simp [hall w (mem_sortDescBy.mp hw)]
  refine ⟨hnone, ?_, ?_⟩
  · simp [extract_prediction, hnone]
  · have hs : sortDescBy splitSpaceCount ["Unlikely", "Very Unlikely"]
        = ["Very Unlikely", "Unlikely"] := by decide
    unfold find_end_word
    rw [hs]
    simp [List.find?, h2]

/-- C4 witness: the amended theorem at a vocabulary-free response and at a
response ending in "Very Unlikely". -/
theorem find_end_word_amended_witness :
    find_end_word "no vocabulary words at all" ["Unlikely", "Very Unlikely"] 50 = none ∧
    extract_prediction "no vocabulary words at all" "tokens" ["Unlikely", "Very Unlikely"]
      = some Pred.pynone ∧
    find_end_word "I conclude it is Very Unlikely" ["Unlikely", "Very Unlikely"] 50
      = some "Very Unlikely" :=
  find_end_word_amended "no vocabulary words at all" ["Unlikely", "Very Unlikely"]
    (by decide) "I conclude it is Very Unlikely" (by decide)

/-- C4 counterexample: the window is 50 characters, not 50 words, and a
miss yields null rather than the middle-of-scale token.  Here the
two-word response starts with the vocabulary entry "Unlikely" (well within
the last 50 words, as the third conjunct records) but its 50-character tail
is all filler, so the claimed result is "Unlikely" (or at least a non-null
middle token) while the code returns `None`, surfaced unchanged by
`extract_prediction`. -/
theorem find_end_word_counterexample :
    find_end_word
      "Unlikely xxxxxxxxxxxxxxxxxxxxxxxxxxxxxxxxxxxxxxxxxxxxxxxxxxxxxxxx"
      ["Unlikely", "Very Unlikely"] 50 = none ∧
    extract_prediction
      "Unlikely xxxxxxxxxxxxxxxxxxxxxxxxxxxxxxxxxxxxxxxxxxxxxxxxxxxxxxxx"
      "tokens" ["Unlikely", "Very Unlikely"] = some Pred.pynone ∧
    (pySplitWS
      "Unlikely xxxxxxxxxxxxxxxxxxxxxxxxxxxxxxxxxxxxxxxxxxxxxxxxxxxxxxxx").length ≤ 50
    := by
  refine ⟨by decide, by decide, by decide⟩

/-! ## C7: rating extraction (code bug) -/

/-- C7: evaluation of `extract_rating_from_response` at the failing input.
A response whose first word is not numeric and which contains no "Rating:"
marker makes the Python function fall off its final `if` and return `None`,
contradicting both the claim and the function docstring ("Returns: float");
a whitespace-only (yet non-empty) response raises `IndexError`.  The
numeric and marker-bearing shapes return ratings as documented, with the
conservative default 1 for a non-numeric token after the marker. -/
theorem extract_rating_falling_cases :
    extract_rating_from_response "The article is mostly unrelated." = .val none ∧
    extract_rating_from_response " " = .exn ∧
    extract_rating_from_response "4" = .val (some (PyRat.ofNat 4)) ∧
    extract_rating_from_response "Rating: 3 (somewhat relevant)"
      = .val (some (PyRat.ofNat 3)) ∧
    extract_rating_from_response "Rating: high" = .val (some (PyRat.ofNat 1)) := by
  refine ⟨by decide, by decide, by decide, by decide, by decide⟩

/-! ## C9: unrecognized sort key -/

/-- C9: for every sorting criterion other than "relevance" and "date",
`_sort_and_filter_articles` logs an error (it is not silent) and returns
the filtered articles unsorted. -/
theorem sort_and_filter_reports_unknown_key (articles : List Article)
    (default_date : PyDate) (threshold : PyRat) (sort_by : String)
    (h1 : sort_by ≠ "relevance") (h2 : sort_by ≠ "date") :
    sort_and_filter_articles articles default_date threshold sort_by
      = (articles.filter (ratingPasses threshold), true) := by
  simp [sort_and_filter_articles, h1, h2]

/-! ## C6: date-range validation of the retrieval entry points -/

/-- C6: on a date range whose end is not strictly after its start, the
combined entry point and both per-source fetchers return an empty result
and issue zero provider calls.  (The functions are total: the guard path
raises nothing.) -/
theorem retrieval_empty_on_invalid_range
    (has_key : Bool) (ncApi : String → PyResult NCResponse)
    (gApi : String → List (Option GRaw)) (getFull : String → Option Article)
    (site_list : List String) (queries_gnews queries_nc : Option (List String))
    (terms : List String) (date_from date_to : PyDate)
    (num_articles length_threshold : Nat)
    (h : is_more_recent date_from date_to = false) :
    get_articles_from_all_sources has_key ncApi gApi getFull site_list
      queries_gnews queries_nc date_from date_to num_articles length_threshold
      = ([], 0) ∧
    get_newscatcher_articles has_key ncApi terms date_from date_to
      num_articles length_threshold = ([], 0) ∧
    get_gnews_articles gApi site_list terms date_from date_to = ([], 0) := by
  refine ⟨?_, ?_, ?_⟩
  · simp [get_articles_from_all_sources, h]
  · unfold get_newscatcher_articles
    cases has_key <;> simp [h]
  · simp [get_gnews_articles, h]

/-- C6 witness: an equal-endpoint range on concrete oracles. -/
theorem retrieval_empty_on_invalid_range_witness :
    get_articles_from_all_sources true (fun _ => .exn) (fun _ => []) (fun _ => none)
      [] (some ["q1"]) (some ["q2"]) ⟨2024, 1, 1⟩ ⟨2024, 1, 1⟩ 5 200 = ([], 0) ∧
    get_newscatcher_articles true (fun _ => .exn) ["q2"] ⟨2024, 1, 1⟩ ⟨2024, 1, 1⟩
      5 200 = ([], 0) ∧
    get_gnews_articles (fun _ => []) [] ["q1"] ⟨2024, 1, 1⟩ ⟨2024, 1, 1⟩ = ([], 0) :=
  retrieval_empty_on_invalid_range true (fun _ => .exn) (fun _ => []) (fun _ => none)
    [] (some ["q1"]) (some ["q2"]) ["q2"] ⟨2024, 1, 1⟩ ⟨2024, 1, 1⟩ 5 200 (by decide)

/-! ## C3: deduplication -/

/-- Unfolding of the key guard for an article with string fields. -/
theorem articleKeys_of_fields {a : Article} {ta la : String}
    (hta : a.title = some ta) (hla : a.canonical_link = some la) :
    articleKeys a = some (pyLower la, pyLower ta) := by
  unfold articleKeys
  rw [hta, hla]

/-- The key guard determines the lowered link and title of an article. -/
theorem articleKeys_some {a : Article} {lu tu : String}
    (h : articleKeys a = some (lu, tu)) :
    lowLink a = some lu ∧ lowTitle a = some tu := by
  unfold articleKeys at h
  rcases ht : a.title with _ | t <;> rcases hl : a.canonical_link with _ | l <;>
    rw [ht, hl] at h <;> simp only [reduceCtorEq] at h
  simp only [Option.some.injEq, Prod.mk.injEq] at h
  simp [lowLink, lowTitle, ht, hl, h.1, h.2]

/-- Unfolding of the loop at a skipped (non-string-field) article. -/
theorem dedupAux_cons_none {urls titles : List String} {x : Article}
    {rest : List Article} (hk : articleKeys x = none) :
    dedupAux urls titles (x :: rest) = dedupAux urls titles rest := by
  simp only [dedupAux]
  rw [hk]

/-- Unfolding of the loop at an article with keys. -/
theorem dedupAux_cons_some {urls titles : List String} {x : Article}
    {rest : List Article} {lu tu : String} (hk : articleKeys x = some (lu, tu)) :
    dedupAux urls titles (x :: rest) =
      if urls.contains lu = false && titles.contains tu = false then
        x :: dedupAux (lu :: urls) (tu :: titles) rest
      else dedupAux urls titles rest := by
  simp only [dedupAux]
  rw [hk]

/-- The deduplication loop returns a sublist of its input. -/
theorem dedupAux_sublist2 (l : List Article) :
    ∀ urls titles, (dedupAux urls titles l).Sublist l := by
  induction l with
  | nil => intro urls titles; simp [dedupAux]
  | cons x rest ih =>
    intro urls titles
    rcases hk : articleKeys x with _ | ⟨lu, tu⟩
    · rw [dedupAux_cons_none hk]
      exact (ih urls titles).cons x
    · rw [dedupAux_cons_some hk]
      split_ifs with h
      · exact List.Sublist.cons₂ x (ih _ _)
      · exact (ih urls titles).cons x

/-- Every article retained by the loop has keys avoiding the accumulated
sets. -/
theorem dedupAux_fields (l : List Article) :
    ∀ urls titles a, a ∈ dedupAux urls titles l →
      ∃ lu tu, articleKeys a = some (lu, tu) ∧
        urls.contains lu = false ∧ titles.contains tu = false := by
  induction l with
  | nil => intro urls titles a ha; simp [dedupAux] at ha
  | cons x rest ih =>
    intro urls titles a ha
    rcases hk : articleKeys x with _ | ⟨lu, tu⟩
    · rw [dedupAux_cons_none hk] at ha
      exact ih _ _ _ ha
    · rw [dedupAux_cons_some hk] at ha
      split_ifs at ha with h
      · rw [Bool.and_eq_true, decide_eq_true_eq, decide_eq_true_eq] at h
        rcases List.mem_cons.mp ha with rfl | ha2
        · exact ⟨lu, tu, hk, h.1, h.2⟩
        · obtain ⟨lu2, tu2, h1, h3, h4⟩ := ih _ _ _ ha2
          rw [List.contains_cons, Bool.or_eq_false_iff] at h3 h4
          exact ⟨lu2, tu2, h1, h3.2, h4.2⟩
      · exact ih _ _ _ ha

/-- The retained articles have pairwise distinct lowered links and pairwise
distinct lowered titles. -/
theorem dedupAux_pairwise (l : List Article) :
    ∀ urls titles, (dedupAux urls titles l).Pairwise
      (fun a b => lowLink a ≠ lowLink b ∧ lowTitle a ≠ lowTitle b) := by
  induction l with
  | nil => intro urls titles; simp [dedupAux]
  | cons x rest ih =>
    intro urls titles
    rcases hk : articleKeys x with _ | ⟨lu, tu⟩
    · rw [dedupAux_cons_none hk]
      exact ih _ _
    · rw [dedupAux_cons_some hk]
      split_ifs with h
      · refine List.Pairwise.cons ?_ (ih _ _)
        intro b hb
        obtain ⟨lub, tub, hkb, h3, h4⟩ := dedupAux_fields rest _ _ b hb
        obtain ⟨hbl, hbt⟩ := articleKeys_some hkb
        obtain ⟨hxl, hxt⟩ := articleKeys_some hk
        rw [List.contains_cons, Bool.or_eq_false_iff] at h3 h4
        have h3b : lub ≠ lu := by
          intro he
          have h5 := h3.1
          rw [he] at h5
          simp at h5
        have h4b : tub ≠ tu := by
          intro he
          have h5 := h4.1
          rw [he] at h5
          simp at h5
        constructor
        · rw [hxl, hbl]
          intro hcon
          exact h3b (Option.some.inj hcon).symm
        · rw [hxt, hbt]
          intro hcon
          exact h4b (Option.some.inj hcon).symm
      · exact ih _ _

/-- A dropped article (with string fields) conflicts with the accumulated
sets or with some retained article on its lowered link or lowered title. -/
theorem dedupAux_dropped (l : List Article) :
    ∀ urls titles a, a ∈ l → a ∉ dedupAux urls titles l →
      ∀ lu tu, articleKeys a = some (lu, tu) →
      urls.contains lu = true ∨ titles.contains tu = true ∨
        ∃ b ∈ dedupAux urls titles l, lowLink b = lowLink a ∨ lowTitle b = lowTitle a := by
  induction l with
  | nil => intro urls titles a ha; simp at ha
  | cons x rest ih =>
    intro urls titles a ha hnot lu tu hka
    rcases hk : articleKeys x with _ | ⟨lx, tx⟩
    · rw [dedupAux_cons_none hk] at hnot ⊢
      rcases List.mem_cons.mp ha with rfl | ha2
      · rw [hka] at hk
        cases hk
      · exact ih _ _ a ha2 hnot lu tu hka
    · rw [dedupAux_cons_some hk] at hnot ⊢
      split_ifs at hnot ⊢ with h
      · rcases List.mem_cons.mp ha with rfl | ha2
        · exact absurd (List.mem_cons_self _ _) hnot
        · have hnot2 : a ∉ dedupAux (lx :: urls) (tx :: titles) rest :=
            fun hmem => hnot (List.mem_cons_of_mem _ hmem)
          rcases ih _ _ a ha2 hnot2 lu tu hka with hc | hc | ⟨b, hb, hbc⟩
          · rw [List.contains_cons, Bool.or_eq_true] at hc
            rcases hc with he | hu
            · have heq : lu = lx := by simpa using he
              refine Or.inr (Or.inr ⟨x, List.mem_cons_self _ _, Or.inl ?_⟩)
              rw [(articleKeys_some hk).1, (articleKeys_some hka).1, heq]
            · exact Or.inl hu
          · rw [List.contains_cons, Bool.or_eq_true] at hc
            rcases hc with he | hu
            · have heq : tu = tx := by simpa using he
              refine Or.inr (Or.inr ⟨x, List.mem_cons_self _ _, Or.inr ?_⟩)
              rw [(articleKeys_some hk).2, (articleKeys_some hka).2, heq]
            · exact Or.inr (Or.inl hu)
          · exact Or.inr (Or.inr ⟨b, List.mem_cons_of_mem _ hb, hbc⟩)
      · rcases List.mem_cons.mp ha with rfl | ha2
        · rw [hka] at hk
          obtain ⟨h1, h2⟩ : lu = lx ∧ tu = tx := by
            have h0 := Option.some.inj hk
            exact ⟨congrArg Prod.fst h0, congrArg Prod.snd h0⟩
          rw [Bool.and_eq_true, decide_eq_true_eq, decide_eq_true_eq, not_and_or] at h
          rcases h with hc | hc
          · left
            rw [h1]
            simpa using hc
          · right; left
            rw [h2]
            simpa using hc
        · exact ih _ _ a ha2 hnot lu tu hka

/-- C3 (amended): an article with string link and title is dropped only
when its lowercased link or its lowercased title coincides with that of a
retained article (the two keys act independently, not as a pair); the
retained articles form a sublist of the input with pairwise distinct
lowercased links and pairwise distinct lowercased titles (so at most one of
any two articles agreeing on both keys survives), and the first article of
the input is always retained. -/
theorem dedup_amended (l : List Article)
    (hstr : ∀ a ∈ l, a.title ≠ none ∧ a.canonical_link ≠ none) :
    (deduplicate_articles l).Sublist l ∧
    (deduplicate_articles l).Pairwise
      (fun a b => lowLink a ≠ lowLink b ∧ lowTitle a ≠ lowTitle b) ∧
    (∀ a ∈ l, a ∉ deduplicate_articles l →
      ∃ b ∈ deduplicate_articles l,
        lowLink b = lowLink a ∨ lowTitle b = lowTitle a) ∧
    (∀ x rest, l = x :: rest → ∃ out, deduplicate_articles l = x :: out) := by
  refine ⟨dedupAux_sublist2 l [] [], dedupAux_pairwise l [] [], ?_, ?_⟩
  · intro a ha hnot
    obtain ⟨h1, h2⟩ := hstr a ha
    obtain ⟨ta, hta⟩ := Option.ne_none_iff_exists.mp h1
    obtain ⟨la, hla⟩ := Option.ne_none_iff_exists.mp h2
    rcases dedupAux_dropped l [] [] a ha hnot (pyLower la) (pyLower ta)
        (articleKeys_of_fields hta.symm hla.symm) with hc | hc | hc
    · simp at hc
    · simp at hc
    · exact hc
  · intro x rest hl
    subst hl
    obtain ⟨h1, h2⟩ := hstr x (List.mem_cons_self _ _)
    obtain ⟨tx, htx⟩ := Option.ne_none_iff_exists.mp h1
    obtain ⟨lx, hlx⟩ := Option.ne_none_iff_exists.mp h2
    refine ⟨dedupAux [pyLower lx] [pyLower tx] rest, ?_⟩
    unfold deduplicate_articles
    rw [dedupAux_cons_some (articleKeys_of_fields htx.symm hlx.symm)]
    simp

/-- C3 witness: the amended theorem on a concrete list with one duplicated
link. -/
theorem dedup_amended_witness :
    (deduplicate_articles
      [{ title := some "T1", canonical_link := some "L" },
       { title := some "T2", canonical_link := some "L" }]).Sublist
      [{ title := some "T1", canonical_link := some "L" },
       { title := some "T2", canonical_link := some "L" }] ∧
    (deduplicate_articles
      [{ title := some "T1", canonical_link := some "L" },
       { title := some "T2", canonical_link := some "L" }]).Pairwise
      (fun a b => lowLink a ≠ lowLink b ∧ lowTitle a ≠ lowTitle b) := by
  have h := dedup_amended
    [{ title := some "T1", canonical_link := some "L" },
     { title := some "T2", canonical_link := some "L" }]
    (by intro a ha; fin_cases ha <;> simp)
  exact ⟨h.1, h.2.1⟩

/-- C3 counterexample: two articles share a lowercased title but have
different lowercased links, so their (link, title) pair keys differ; the
claim says the pair key is new and the second article is retained, but the
code drops it because the title alone is already taken. -/
theorem dedup_counterexample :
    deduplicate_articles
      [{ title := some "Shared Title", canonical_link := some "http://a.com" },
       { title := some "Shared Title", canonical_link := some "http://b.com" }]
      = [{ title := some "Shared Title", canonical_link := some "http://a.com" }] ∧
    pyLower "http://b.com" ≠ pyLower "http://a.com" := by
  refine ⟨by decide, by decide⟩

/-- C9 witness: the unrecognized key "alphabetical". -/
theorem sort_and_filter_reports_unknown_key_witness :
    sort_and_filter_articles
      [{ relevance_rating := some ⟨5, 1⟩ }, { relevance_rating := some ⟨1, 1⟩ }]
      ⟨2024, 1, 1⟩ ⟨4, 1⟩ "alphabetical"
      = ([{ relevance_rating := some ⟨5, 1⟩ },
          { relevance_rating := some ⟨1, 1⟩ }].filter (ratingPasses ⟨4, 1⟩), true) :=
  sort_and_filter_reports_unknown_key _ _ _ _ (by decide) (by decide)

/-! ## C5, C10, C2: ensemble aggregation -/

/-- `mapM` over an everywhere-successful function is `map`. -/
theorem mapM_eq_map_of_some {α β : Type _} (f : α → Option β) (g : α → β)
    (h : ∀ x, f x = some (g x)) : ∀ l : List α, l.mapM f = some (l.map g) := by
  intro l
  induction l with
  | nil => rfl
  | cons a as ih =>
    rw [List.mapM_cons, h a, ih]
    rfl

/-- For a valid answer type extraction always succeeds, with the value
`extractPredSome`. -/
theorem extract_prediction_eq_some {r answer_type : String} {ews : List String}
    (h : answer_type = "probability" ∨ answer_type = "tokens") :
    extract_prediction r answer_type ews = some (extractPredSome r answer_type ews) := by
  rcases h with rfl | rfl <;> simp [extract_prediction, extractPredSome]

/-- The nested extraction `mapM` of the aggregator always succeeds for a
valid answer type. -/
theorem aggregate_mapM_eq (rs : List (List String)) (answer_type : String)
    (ews : List String) (h : answer_type = "probability" ∨ answer_type = "tokens") :
    rs.mapM (fun lst => lst.mapM (fun r => extract_prediction r answer_type ews))
      = some (rs.map (List.map (fun r => extractPredSome r answer_type ews))) := by
  apply mapM_eq_map_of_some
  intro lst
  exact mapM_eq_map_of_some _ _ (fun r => extract_prediction_eq_some h) lst

/-- C5: when exactly one base reasoning exists across all groups, the
aggregator skips aggregation regardless of aggregation method and answer
type: it returns that reasoning's extracted prediction as
`meta_prediction`, with `meta_prompt` and `meta_reasoning` both `None`, and
issues no meta-model completion call (`meta_calls = 0`; the result does not
depend on the completion oracle at all). -/
theorem aggregate_single_reasoning
    (oracle : String → String) (rs : List (List String))
    (q b d rc ri : String) (method answer_type : String)
    (weights : Option (List PyRat)) (ews : List String)
    (tmpl : String × List String)
    (hat : answer_type = "probability" ∨ answer_type = "tokens")
    (x : String) (hx : rs.flatten = [x]) :
    aggregate_base_reasonings oracle rs q b d rc ri method answer_type weights ews tmpl
      = some { base_predictions :=
                 rs.map (List.map (fun r => extractPredSome r answer_type ews)),
               meta_prediction := extractPredSome x answer_type ews,
               meta_prompt := none, meta_reasoning := none, meta_calls := 0 } := by
  have hlen : ¬rs.length = 0 := by
    intro h0
    rw [List.length_eq_zero.mp h0] at hx
    simp at hx
  have hflat : (rs.map (List.map (fun r => extractPredSome r answer_type ews))).flatten
      = [extractPredSome x answer_type ews] := by
    rw [← List.map_flatten, hx]
    rfl
  unfold aggregate_base_reasonings
  simp only [hlen, if_false, aggregate_mapM_eq rs answer_type ews hat, Option.bind_some,
    Option.bind_eq_bind, if_neg hlen]
  simp [hflat]

/-- C5 witness: a single probability reasoning under the mean strategy. -/
theorem aggregate_single_reasoning_witness :
    aggregate_base_reasonings (fun _ => "oracle response") [["I give *0.7*"]]
      "q" "b" "2024-01-01" "rc" "ri" "mean" "probability" none [] ("t", [])
      = some { base_predictions :=
                 [["I give *0.7*"]].map
                   (List.map (fun r => extractPredSome r "probability" [])),
               meta_prediction := extractPredSome "I give *0.7*" "probability" [],
               meta_prompt := none, meta_reasoning := none, meta_calls := 0 } :=
  aggregate_single_reasoning (fun _ => "oracle response") [["I give *0.7*"]]
    "q" "b" "2024-01-01" "rc" "ri" "mean" "probability" none [] ("t", [])
    (Or.inl rfl) "I give *0.7*" (by decide)

/-- A list of length at least two starts with two elements. -/
theorem exists_cons_cons_of_one_lt {α : Type _} {l : List α} (h : 1 < l.length) :
    ∃ a b t, l = a :: b :: t := by
  match l with
  | [] => simp at h
  | [a] => simp at h
  | a :: b :: t => exact ⟨a, b, t, rfl⟩

/-- The `PromptArgs` record the aggregator passes to `get_prompt` for the
meta prompt. -/
def metaPromptArgs (q b d rc ri : String) (rs : List (List String)) : PromptArgs :=
  { question := some q, background := some b, dates := strIndexPair d,
    retrieved_info := some ri,
    reasoning := some (concatenate_reasonings rs.flatten),
    resolution_criteria := some rc }

/-- Parsing a token from the meta response, rephrased through
`metaTokenOf`. -/
theorem tokenOrDefault_eq_metaTokenOf (ews : List String) (resp : String) :
    tokenOrDefault ews
      (some (match find_end_word resp ews with
             | some w => Pred.tok w
             | none => Pred.pynone))
      = some (metaTokenOf ews resp) := by
  unfold tokenOrDefault metaTokenOf
  rcases find_end_word resp ews with _ | w <;> simp

/-- Characterization of the aggregator on the meta path for token answers:
any method other than vote-or-median, with more than one reasoning, goes
through one completion call and token parsing of its response. -/
theorem aggregate_tokens_meta_path
    (oracle : String → String) (rs : List (List String)) (q b d rc ri : String)
    (method : String) (weights : Option (List PyRat)) (ews : List String)
    (tmpl : String × List String)
    (hm : ¬(method = "vote-or-median")) (hlen : 1 < rs.flatten.length) :
    aggregate_base_reasonings oracle rs q b d rc ri method "tokens" weights ews tmpl
      = match get_prompt tmpl.1 tmpl.2 (metaPromptArgs q b d rc ri rs) with
        | none => none
        | some p =>
          some { base_predictions :=
                   rs.map (List.map (fun r => extractPredSome r "tokens" ews)),
                 meta_prediction := metaTokenOf ews (oracle p),
                 meta_prompt := some p, meta_reasoning := some (oracle p),
                 meta_calls := 1 } := by
  have hlen0 : ¬rs.length = 0 := by
    intro h0
    rw [List.length_eq_zero.mp h0] at hlen
    simp at hlen
  obtain ⟨a, c, t, hac⟩ := exists_cons_cons_of_one_lt hlen
  have hflat2 : (rs.map (List.map (fun r => extractPredSome r "tokens" ews))).flatten
      = extractPredSome a "tokens" ews :: extractPredSome c "tokens" ews
        :: t.map (fun r => extractPredSome r "tokens" ews) := by
    rw [← List.map_flatten, hac]
    rfl
  unfold aggregate_base_reasonings
  rw [if_neg hlen0, aggregate_mapM_eq rs "tokens" ews (Or.inr rfl)]
  simp only [Option.bind_eq_bind, Option.some_bind, hflat2]
  have hcond1 : ¬((("tokens" : String) = "probability") ∧ method ≠ "meta") := by
    intro hcon
    exact absurd hcon.1 (by decide)
  have hcond2 : ¬(True ∧ method = "vote-or-median") := by
    intro hcon
    exact hm hcon.2
  rw [if_neg hcond1, if_neg hcond2]
  rcases hp : get_prompt tmpl.1 tmpl.2 (metaPromptArgs q b d rc ri rs) with _ | p <;>
    unfold metaPromptArgs at hp <;>
    simp [hp, tokenOrDefault_eq_metaTokenOf]

/-- C10: with answer type tokens and aggregation method mean or
weighted-mean and more than one base reasoning, no average is computed: the
call falls through to the meta-reasoning path, returning exactly what
aggregation method meta returns — one completion call (`meta_calls = 1`),
non-`None` `meta_prompt`/`meta_reasoning`, and a token `meta_prediction`
parsed from the meta response (an entry of the vocabulary, or the
"Slightly Unlikely" default). -/
theorem aggregate_tokens_mean_is_meta
    (oracle : String → String) (rs : List (List String)) (q b d rc ri : String)
    (method : String) (weights : Option (List PyRat)) (ews : List String)
    (tmpl : String × List String)
    (hm : method = "mean" ∨ method = "weighted-mean")
    (hlen : 1 < rs.flatten.length) :
    aggregate_base_reasonings oracle rs q b d rc ri method "tokens" weights ews tmpl
      = aggregate_base_reasonings oracle rs q b d rc ri "meta" "tokens" weights ews tmpl ∧
    ∀ res,
      aggregate_base_reasonings oracle rs q b d rc ri method "tokens" weights ews tmpl
        = some res →
      res.meta_calls = 1 ∧
      ∃ p s, res.meta_prompt = some p ∧ res.meta_reasoning = some (oracle p) ∧
        res.meta_prediction = Pred.tok s ∧ (s ∈ ews ∨ s = "Slightly Unlikely") := by
  have hm1 : ¬(method = "vote-or-median") := by
    rcases hm with rfl | rfl <;> decide
  have h1 := aggregate_tokens_meta_path oracle rs q b d rc ri method weights ews tmpl
    hm1 hlen
  have h2 := aggregate_tokens_meta_path oracle rs q b d rc ri "meta" weights ews tmpl
    (by decide) hlen
  constructor
  · rw [h1, h2]
  · intro res hres
    rw [h1] at hres
    rcases hp : get_prompt tmpl.1 tmpl.2 (metaPromptArgs q b d rc ri rs) with _ | p
    · rw [hp] at hres
      cases hres
    · rw [hp] at hres
      obtain rfl := (Option.some.inj hres).symm
      refine ⟨rfl, p, ?_⟩
      unfold metaTokenOf
      rcases hw : find_end_word (oracle p) ews with _ | w
      · exact ⟨"Slightly Unlikely", rfl, rfl, rfl, Or.inr rfl⟩
      · by_cases hin : is_string_in_list w ews = true
        · refine ⟨w, rfl, rfl, ?_, Or.inl (find_end_word_mem hw)⟩
          simp [hin]
        · refine ⟨"Slightly Unlikely", rfl, rfl, ?_, Or.inr rfl⟩
          simp [hin]

/-- C10 witness: two token reasonings, mean strategy, concrete template. -/
theorem aggregate_tokens_mean_is_meta_witness :
    (aggregate_base_reasonings (fun _ => "ans: Likely") [["Unlikely"], ["Likely"]]
      "q" "b" "2024-01-01" "rc" "ri" "mean" "tokens" none ["Unlikely", "Likely"]
      ("{question}", ["QUESTION"])
      = aggregate_base_reasonings (fun _ => "ans: Likely") [["Unlikely"], ["Likely"]]
        "q" "b" "2024-01-01" "rc" "ri" "meta" "tokens" none ["Unlikely", "Likely"]
        ("{question}", ["QUESTION"])) ∧
    ∀ res,
      aggregate_base_reasonings (fun _ => "ans: Likely") [["Unlikely"], ["Likely"]]
        "q" "b" "2024-01-01" "rc" "ri" "mean" "tokens" none ["Unlikely", "Likely"]
        ("{question}", ["QUESTION"]) = some res →
      res.meta_calls = 1 ∧
      ∃ p s, res.meta_prompt = some p ∧
        res.meta_reasoning = some ((fun (_ : String) => "ans: Likely") p) ∧
        res.meta_prediction = Pred.tok s ∧
        (s ∈ ["Unlikely", "Likely"] ∨ s = "Slightly Unlikely") :=
  aggregate_tokens_mean_is_meta (fun _ => "ans: Likely") [["Unlikely"], ["Likely"]]
    "q" "b" "2024-01-01" "rc" "ri" "mean" none ["Unlikely", "Likely"]
    ("{question}", ["QUESTION"]) (Or.inl rfl) (by decide)

/-- Half denotes a value in the unit interval. -/
theorem pyHalf_val_unit : 0 ≤ pyHalf.val ∧ pyHalf.val ≤ 1 := by
  constructor <;> norm_num [pyHalf, PyRat.val]

/-- The clamp step of the probability branches yields a float in the unit
interval whenever it receives a float. -/
theorem clamp_unit (m : Pred) (hm : ∃ mm, m = Pred.num mm) :
    ∃ p, (if pyBadProb m = true then Pred.num pyHalf else m) = Pred.num p ∧
      0 ≤ p.val ∧ p.val ≤ 1 := by
  obtain ⟨mm, rfl⟩ := hm
  by_cases hb : pyBadProb (Pred.num mm) = true
  · rw [if_pos hb]
    exact ⟨pyHalf, rfl, pyHalf_val_unit⟩
  · rw [if_neg hb]
    exact ⟨mm, rfl, pyBadProb_false_val (by simpa using hb)⟩

/-- `toRatList` recovers a list of floats. -/
theorem toRatList_num (l : List PyRat) : toRatList (l.map Pred.num) = some l := by
  induction l with
  | nil => rfl
  | cons a as ih =>
    unfold toRatList at ih ⊢
    rw [List.map_cons, List.mapM_cons, ih]
    rfl

/-- Extraction for probabilities is star extraction. -/
theorem extractPredSome_prob (r : String) (ews : List String) :
    extractPredSome r "probability" ews
      = Pred.num (extract_probability_with_stars r) := rfl

/-- `np.mean` of a nonempty list is a float. -/
theorem np_mean_cons (a : PyRat) (as : List PyRat) :
    np_mean (a :: as) = Pred.num (pyDivNat (pySum (a :: as)) (a :: as).length) := rfl

/-- `np.median` of a nonempty list is a float. -/
theorem np_median_num (a : PyRat) (as : List PyRat) :
    ∃ m, np_median (a :: as) = Pred.num m := by
  unfold np_median
  simp only [List.isEmpty_cons, Bool.false_eq_true, if_false]
  split_ifs <;> exact ⟨_, rfl⟩

/-- A successful `np.average` of a nonempty list is a float. -/
theorem np_average_num {l : List PyRat} {w : Option (List PyRat)} {mp : Pred}
    (hl : l ≠ []) (h : np_average l w = some mp) : ∃ m, mp = Pred.num m := by
  rcases l with _ | ⟨a, as⟩
  · exact absurd rfl hl
  rcases w with _ | ws
  · have h2 : some (np_mean (a :: as)) = some mp := h
    rw [np_mean_cons] at h2
    exact ⟨_, (Option.some.inj h2).symm⟩
  · have h2 : (if ws.length ≠ (a :: as).length then none
        else if pySum ws = ⟨0, (pySum ws).den⟩ then none
        else some (Pred.num (pyDiv (pySum (List.zipWith pyMul (a :: as) ws))
          (pySum ws)))) = some mp := h
    split_ifs at h2 with h1 h3
    all_goals first
      | exact ⟨_, rfl⟩
      | exact ⟨_, (Option.some.inj h2).symm⟩

/-- C2 (amended): for every aggregation over probability answers with one
of the four strategies, provided at least one base reasoning exists and the
call returns (for weighted-mean, `np.average` may instead raise on
mismatched lengths or a zero weight sum), the returned `meta_prediction`
denotes a value in [0, 1]: every aggregated value outside the interval is
replaced by 0.5 before being returned.  (With no base reasoning at all,
`np.mean`/`np.median` of the empty list is NaN, which the interval check
does not catch — see the counterexample.) -/
theorem aggregate_probability_unit_interval
    (oracle : String → String) (rs : List (List String)) (q b d rc ri : String)
    (method : String) (weights : Option (List PyRat)) (ews : List String)
    (tmpl : String × List String) (res : AggResult)
    (hm : method = "mean" ∨ method = "weighted-mean" ∨ method = "vote-or-median" ∨
      method = "meta")
    (hne : rs.flatten ≠ [])
    (hres : aggregate_base_reasonings oracle rs q b d rc ri method "probability"
      weights ews tmpl = some res) :
    ∃ p, res.meta_prediction = Pred.num p ∧ 0 ≤ p.val ∧ p.val ≤ 1 := by
  have hlen0 : ¬rs.length = 0 := by
    intro h0
    rw [List.length_eq_zero.mp h0] at hne
    simp at hne
  unfold aggregate_base_reasonings at hres
  rw [if_neg hlen0, aggregate_mapM_eq rs "probability" ews (Or.inl rfl)] at hres
  simp only [Option.bind_eq_bind, Option.some_bind] at hres
  have hflat : (rs.map (List.map (fun r => extractPredSome r "probability" ews))).flatten
      = rs.flatten.map (fun r => extractPredSome r "probability" ews) :=
    (List.map_flatten _ _).symm
  rcases hfl : rs.flatten with _ | ⟨x, xs⟩
  · exact absurd hfl hne
  rcases xs with _ | ⟨y, ys⟩
  · rw [hflat, hfl] at hres
    simp only [List.map_cons, List.map_nil] at hres
    obtain rfl := (Option.some.inj hres).symm
    exact ⟨extract_probability_with_stars x, rfl, extract_probability_val_unit x⟩
  · rw [hflat, hfl] at hres
    simp only [List.map_cons] at hres
    have hnums : toRatList
        (extractPredSome x "probability" ews :: extractPredSome y "probability" ews
          :: ys.map (fun r => extractPredSome r "probability" ews))
        = some (extract_probability_with_stars x :: extract_probability_with_stars y
          :: ys.map extract_probability_with_stars) := by
      have h0 : (extractPredSome x "probability" ews
            :: extractPredSome y "probability" ews
            :: ys.map (fun r => extractPredSome r "probability" ews))
          = (extract_probability_with_stars x :: extract_probability_with_stars y
            :: ys.map extract_probability_with_stars).map Pred.num := by
        simp only [extractPredSome_prob, List.map_cons, List.map_map]
        rfl
      rw [h0, toRatList_num]
    rcases hm with rfl | rfl | rfl | rfl
    · simp +decide only [hnums, Option.some_bind] at hres
      obtain rfl := (Option.some.inj hres).symm
      exact clamp_unit _ ⟨_, np_mean_cons _ _⟩
    · simp +decide only [hnums, Option.some_bind] at hres
      rcases hav : np_average
          (extract_probability_with_stars x :: extract_probability_with_stars y
            :: ys.map extract_probability_with_stars) weights with _ | mp0
      · rw [hav] at hres
        simp at hres
      · rw [hav] at hres
        simp only [Option.some_bind] at hres
        obtain rfl := (Option.some.inj hres).symm
        exact clamp_unit _ (np_average_num (by simp) hav)
    · simp +decide only [hnums, Option.some_bind] at hres
      obtain rfl := (Option.some.inj hres).symm
      exact clamp_unit _ (np_median_num _ _)
    · simp +decide only [] at hres
      rcases hp : get_prompt tmpl.1 tmpl.2
          { question := some q, background := some b, dates := strIndexPair d,
            retrieved_info := some ri,
            reasoning := some (concatenate_reasonings (x :: y :: ys)),
            resolution_criteria := some rc } with _ | p
      · rw [hp] at hres
        simp at hres
      · rw [hp] at hres
        simp +decide only [Option.some_bind] at hres
        obtain rfl := (Option.some.inj hres).symm
        exact clamp_unit _ ⟨_, rfl⟩

/-- C2 witness: two probability reasonings, mean strategy. -/
theorem aggregate_probability_unit_interval_witness :
    ∃ p, (AggResult.meta_prediction
      { base_predictions := [[Pred.num ⟨7, 10⟩], [Pred.num ⟨9, 10⟩]],
        meta_prediction := Pred.num ⟨160, 200⟩, meta_prompt := none,
        meta_reasoning := none, meta_calls := 0 }) = Pred.num p ∧
      0 ≤ p.val ∧ p.val ≤ 1 :=
  aggregate_probability_unit_interval (fun _ => "resp") [["I think *0.7*"], ["also *0.9*"]]
    "q" "b" "2024-01-01" "rc" "ri" "mean" none [] ("t", [])
    { base_predictions := [[Pred.num ⟨7, 10⟩], [Pred.num ⟨9, 10⟩]],
      meta_prediction := Pred.num ⟨160, 200⟩, meta_prompt := none,
      meta_reasoning := none, meta_calls := 0 }
    (Or.inl rfl) (by decide) (by decide)

/-- C2 counterexample: a call with one group and zero reasonings passes the
leading assert, computes `np.mean` of an empty list — NaN — and the
interval check `< 0 or > 1` is false for NaN, so NaN is returned as the
`meta_prediction` instead of being remapped to 0.5; it lies in no interval.
-/
theorem aggregate_probability_nan_counterexample :
    aggregate_base_reasonings (fun _ => "resp") [[]] "q" "b" "2024-01-01" "rc" "ri"
      "mean" "probability" none [] ("t", [])
      = some { base_predictions := [[]], meta_prediction := Pred.nan,
               meta_prompt := none, meta_reasoning := none, meta_calls := 0 } ∧
    Pred.nan ≠ Pred.num pyHalf := by
  refine ⟨by decide, by decide⟩

/-! ## C8: recursive summarization termination -/

/-- `mapM` over a function successful on every member is `map`. -/
theorem mapM_eq_map_of_mem {α β : Type _} {f : α → Option β} {g : α → β} :
    ∀ {l : List α}, (∀ x ∈ l, f x = some (g x)) → l.mapM f = some (l.map g) := by
  intro l
  induction l with
  | nil => intro _; rfl
  | cons a as ih =>
    intro h
    rw [List.mapM_cons, h a (List.mem_cons_self _ _),
      ih (fun x hx => h x (List.mem_cons_of_mem _ hx))]
    rfl

/-- Termination of the summarization recursion, by induction on fuel: with
a summarizer that strictly shrinks every (nonempty) text it is given, a
subadditive-over-join token counter, chunking that never exceeds the input
token total nor produces an over-limit chunk, any fuel exceeding the token
count of the input suffices, and the final output fits in the limit. -/
theorem recursive_summarize_terminates_general
    (tk : String → Nat) (llm : String → String) (limit : Nat)
    (hlim : 1 ≤ limit)
    (hllm : ∀ t, tk t ≤ limit → tk (llm t) < max (tk t) 1)
    (hjoin : ∀ l : List String, tk (joinSpace l) ≤ (l.map tk).sum)
    (hsum : ∀ t, ((split_text_into_chunks tk t (limit - 1000)).map tk).sum ≤ tk t)
    (hchunk : ∀ t c, c ∈ split_text_into_chunks tk t (limit - 1000) → tk c ≤ limit) :
    ∀ fuel text, tk text < fuel →
      ∃ s, recursive_summarize tk llm limit fuel text = some s ∧ tk s ≤ limit := by
  intro fuel
  induction fuel with
  | zero => intro text h; omega
  | succ f ih =>
    intro text hft
    by_cases hb : tk text ≤ limit
    · refine ⟨llm text, ?_, ?_⟩
      · unfold recursive_summarize
        rw [if_pos hb]
      · have h1 := hllm text hb
        have h2 : max (tk text) 1 ≤ max limit 1 := max_le_max hb le_rfl
        have h3 : max limit 1 = limit := max_eq_left hlim
        omega
    · push_neg at hb
      have hmapM : (split_text_into_chunks tk text (limit - 1000)).mapM
          (recursive_summarize tk llm limit f)
          = some ((split_text_into_chunks tk text (limit - 1000)).map llm) := by
        apply mapM_eq_map_of_mem
        intro c hc
        have hcle : tk c ≤ limit := hchunk text c hc
        match f, hft with
        | f2 + 1, _ =>
          unfold recursive_summarize
          rw [if_pos hcle]
        | 0, hft0 => omega
      have hpt : ∀ c ∈ split_text_into_chunks tk text (limit - 1000),
          tk (llm c) ≤ tk c := by
        intro c hc
        have h1 := hllm c (hchunk text c hc)
        omega
      have hsize : tk (joinSpace ((split_text_into_chunks tk text (limit - 1000)).map llm))
          < tk text := by
        have hj := hjoin ((split_text_into_chunks tk text (limit - 1000)).map llm)
        rw [List.map_map] at hj
        by_cases hz : ∀ c ∈ split_text_into_chunks tk text (limit - 1000), tk c = 0
        · have h0 : ((split_text_into_chunks tk text (limit - 1000)).map (tk ∘ llm)).sum
              = 0 := by
            apply List.sum_eq_zero
            intro x hx
            obtain ⟨c, hc, rfl⟩ := List.mem_map.mp hx
            have h1 := hllm c (hchunk text c hc)
            have h2 := hz c hc
            simp only [Function.comp]
            omega
          omega
        · push_neg at hz
          obtain ⟨c0, hc0, hc0ne⟩ := hz
          have hstrict : ((split_text_into_chunks tk text (limit - 1000)).map (tk ∘ llm)).sum
              < ((split_text_into_chunks tk text (limit - 1000)).map tk).sum := by
            apply List.sum_lt_sum
            · intro i hi
              simp only [Function.comp]
              exact hpt i hi
            · refine ⟨c0, hc0, ?_⟩
              simp only [Function.comp]
              have h1 := hllm c0 (hchunk text c0 hc0)
              omega
          have h2 := hsum text
          omega
      obtain ⟨s, hs1, hs2⟩ := ih
        (joinSpace ((split_text_into_chunks tk text (limit - 1000)).map llm))
        (by omega)
      refine ⟨s, ?_, hs2⟩
      unfold recursive_summarize
      rw [if_neg (by omega), hmapM]
      exact hs1

/-- C8 (amended): under the strengthened precondition that every
summarization call strictly shrinks its (nonzero-token) input — also for
inputs at or below the model limit — and for a token counter that is
subadditive over space-joins and a chunking step that neither exceeds the
input token total nor emits an over-limit chunk, `recursive_summarize`
terminates for every input text within a recursion depth (number of
passes) bounded by the token count of the input plus one, and the final
output has at most `limit` tokens.  The pass bound is linear in the input
token count, not the logarithmic bound of the original claim. -/
theorem recursive_summarize_amended
    (tk : String → Nat) (llm : String → String) (limit : Nat) (text : String)
    (hlim : 1 ≤ limit)
    (hllm : ∀ t, tk t ≤ limit → tk (llm t) < max (tk t) 1)
    (hjoin : ∀ l : List String, tk (joinSpace l) ≤ (l.map tk).sum)
    (hsum : ∀ t, ((split_text_into_chunks tk t (limit - 1000)).map tk).sum ≤ tk t)
    (hchunk : ∀ t c, c ∈ split_text_into_chunks tk t (limit - 1000) → tk c ≤ limit) :
    ∃ s, recursive_summarize tk llm limit (tk text + 1) text = some s ∧ tk s ≤ limit :=
  recursive_summarize_terminates_general tk llm limit hlim hllm hjoin hsum hchunk
    (tk text + 1) text (by omega)

/-- C8 witness: the amended theorem at a concrete instantiation (zero-token
counter, identity summarizer, limit 1001). -/
theorem recursive_summarize_amended_witness :
    ∃ s, recursive_summarize (fun _ => 0) (fun s => s) 1001 (0 + 1) "some input text"
        = some s ∧ (fun (_ : String) => 0) s ≤ 1001 :=
  recursive_summarize_amended (fun _ => 0) (fun s => s) 1001 "some input text"
    (by decide) (fun t _ => lt_of_lt_of_le Nat.zero_lt_one (le_max_right _ _))
    (fun l => by simp) (fun t => by simp) (fun t c _ => Nat.zero_le _)

/-- The word count of a single-letter word. -/
theorem wordCount_a : wordCount "a" = 1 := by decide

/-- Splitting the space-join of `n` copies of a one-letter word recovers the
`n` words. -/
theorem split_join_replicate :
    ∀ n, pySplitWSL (joinSpaceL (List.replicate n ['a'])) = List.replicate n ['a'] := by
  intro n
  induction n with
  | zero => rfl
  | succ m ih =>
    cases m with
    | zero => rfl
    | succ k =>
      have hjoin : joinSpaceL (List.replicate (k + 2) ['a'])
          = 'a' :: ' ' :: joinSpaceL (List.replicate (k + 1) ['a']) := by
        rw [List.replicate_succ, List.replicate_succ]
        rfl
      have hstep : pySplitWSL ('a' :: ' ' :: joinSpaceL (List.replicate (k + 1) ['a']))
          = match pySplitWSL (joinSpaceL (List.replicate (k + 1) ['a'])) with
            | [] => [['a']]
            | w :: ws => ['a'] :: w :: ws := rfl
      rw [hjoin, hstep, ih, List.replicate_succ]
      rfl

/-- The words of the counterexample text. -/
theorem pySplitWS_caText : pySplitWS caText = List.replicate 1002 "a" := by
  unfold pySplitWS
  have h1 : caText.data = joinSpaceL (List.replicate 1002 ['a']) := by
    unfold caText joinSpace
    rw [show (List.replicate 1002 "a").map String.data = List.replicate 1002 ['a'] by
      rw [List.map_replicate]]
  rw [h1, split_join_replicate, List.map_replicate]

/-- The counterexample text has 1002 tokens under the word counter. -/
theorem wordCount_caText : wordCount caText = 1002 := by
  unfold wordCount
  rw [pySplitWS_caText, List.length_replicate]

/-- Chunking at chunk limit 1 turns each remaining one-token word into its
own chunk. -/
theorem chunkLoop_replicate :
    ∀ n, chunkLoop wordCount 1 (List.replicate n "a") ["a"] 1
      = List.replicate (n + 1) "a" := by
  intro n
  induction n with
  | zero => rfl
  | succ m ih =>
    rw [List.replicate_succ]
    unfold chunkLoop
    rw [if_pos (by rw [wordCount_a]; omega), wordCount_a, ih]
    rfl

/-- The chunking of the counterexample text. -/
theorem split_caText :
    split_text_into_chunks wordCount caText (caLimit - 1000)
      = List.replicate 1002 "a" := by
  unfold split_text_into_chunks
  rw [pySplitWS_caText]
  rw [show caLimit - 1000 = 1 from rfl,
    show List.replicate 1002 "a" = "a" :: List.replicate 1001 "a" from rfl]
  unfold chunkLoop
  rw [if_neg (by rw [wordCount_a]; omega), wordCount_a]
  show chunkLoop wordCount 1 (List.replicate 1001 "a") ["a"] 1
    = "a" :: List.replicate 1001 "a"
  rw [chunkLoop_replicate]
  rfl

/-- A one-word text is summarized to itself by the counterexample
summarizer at any positive depth. -/
theorem rs_ca_a (f : Nat) :
    recursive_summarize wordCount caLlm caLimit (f + 1) "a" = some "a" := by
  unfold recursive_summarize
  rw [if_pos (by rw [wordCount_a]; decide)]
  decide

/-- The chunk summaries of the counterexample are the chunks themselves. -/
theorem rs_ca_mapM (f : Nat) :
    ∀ n, (List.replicate n "a").mapM
        (recursive_summarize wordCount caLlm caLimit (f + 1))
      = some (List.replicate n "a") := by
  intro n
  induction n with
  | zero => rfl
  | succ m ih =>
    rw [List.replicate_succ, List.mapM_cons, rs_ca_a, ih]
    rfl

/-- The counterexample run never terminates: at every depth the
concatenated chunk summaries reproduce the input text exactly. -/
theorem rs_caText_none :
    ∀ fuel, recursive_summarize wordCount caLlm caLimit fuel caText = none := by
  intro fuel
  induction fuel with
  | zero => rfl
  | succ f ih =>
    unfold recursive_summarize
    rw [if_neg (by rw [wordCount_caText]; decide), split_caText]
    cases f with
    | zero =>
      rw [show List.replicate 1002 "a" = "a" :: List.replicate 1001 "a" from rfl,
        List.mapM_cons]
      rfl
    | succ f2 =>
      rw [rs_ca_mapM f2 1002]
      show recursive_summarize wordCount caLlm caLimit (f2 + 1)
        (joinSpace (List.replicate 1002 "a")) = none
      exact ih

/-- C8 counterexample: the claim, as stated, is false.  Instantiate the
token counter with the whitespace word count, the limit with 1001 (so the
hard-coded safety margin leaves a chunk limit of 1), the summarizer with
one that strictly shrinks exactly the over-limit inputs (as the stated
precondition demands) and returns at-or-below-limit inputs unchanged, and
the input with 1002 one-token words: every pass splits the text into its
words, "summarizes" each one-token chunk to itself, rejoins them into the
original text and recurses forever — the claimed termination (and a
fortiori the claimed pass bound) fails. -/
theorem recursive_summarize_counterexample : ¬summarizeClaimStatement := by
  intro hclaim
  obtain ⟨fuel, s, hs, _⟩ := hclaim wordCount caLlm caLimit caText (by decide)
    (by
      intro t ht
      unfold caLlm
      rw [if_pos ht]
      have h0 : wordCount "" = 0 := by decide
      omega)
  rw [rs_caText_none fuel] at hs
  cases hs

end LF
